import Mathlib

/-!
Shallow embedding of the homogeneous self-dual splitting solver core of
src/src/scs.c.  Scalars are modelled as Option rationals: none stands for
NaN and propagates through arithmetic, and every comparison with it is
false, matching the IEEE comparison semantics the C code relies on.
The external collaborators of the engine (linear-system subsolver, cone
module, normalizer, libm sqrt, timer) are opaque parameters gathered in
the Externs structure; vectors are total functions from indices to
scalars, mirroring the C arrays together with their junk beyond the
allocated length.
-/

namespace SCS

/-- Scalar model of pfloat: none is NaN, some q is a finite value. -/
abbrev PF := Option ℚ

namespace PF

/-- NaN of the model. -/
def nan : PF := none

/-- Finite scalar constant. -/
def ofQ (q : ℚ) : PF := some q

/-- Addition, NaN propagating. -/
def add : PF → PF → PF
  | some a, some b => some (a + b)
  | _, _ => none

/-- Subtraction, NaN propagating. -/
def sub : PF → PF → PF
  | some a, some b => some (a - b)
  | _, _ => none

/-- Multiplication, NaN propagating. -/
def mul : PF → PF → PF
  | some a, some b => some (a * b)
  | _, _ => none

/-- Negation, NaN propagating. -/
def neg : PF → PF
  | some a => some (-a)
  | none => none

/-- Division; division by zero is mapped to NaN.  On the paths the model
is used to settle claims, the code divides by zero only when the
numerator is zero as well, where IEEE also yields NaN. -/
def div : PF → PF → PF
  | some a, some b => if b = 0 then none else some (a / b)
  | _, _ => none

/-- ABS macro of the source, NaN propagating. -/
def abs : PF → PF
  | some a => some |a|
  | none => none

/-- Comparison a < b as in C: false whenever an operand is NaN. -/
def blt : PF → PF → Bool
  | some a, some b => decide (a < b)
  | _, _ => false

/-- MAX macro of the source, ((a) > (b) ? (a) : (b)): the second
argument wins on ties and whenever the greater-than test involves NaN. -/
def maxC (a b : PF) : PF := if blt b a then a else b

/-- Library sqrt lifted to the model; sq is the external libm sqrt
restricted to rationals (its values on non-squares are approximations
chosen by the instantiation). -/
def sqrtE (sq : ℚ → ℚ) : PF → PF
  | some a => if a < 0 then none else some (sq a)
  | none => none

end PF

/-- Vector model: a C array together with its junk beyond the length. -/
abbrev Vec := Nat → PF

/-- View of the subarray starting at offset k (the C pointer a + k). -/
def shift (x : Vec) (k : Nat) : Vec := fun i => x (k + i)

/-- In-place element loop: for t in [0, len) the cell start + t is
rewritten by f from its current content.  All the C array loops of the
engine are instances of this combinator. -/
def mapIdxRange (a : Vec) (start len : Nat) (f : Nat → PF → PF) : Vec :=
  (List.range len).foldl
    (fun acc t => fun j => if j = start + t then f j (acc j) else acc j) a

/-- Write of a contiguous block, memcpy(dst + start, src, len). -/
def writeSeg (dst : Vec) (start len : Nat) (src : Vec) : Vec :=
  fun i => if start ≤ i ∧ i < start + len then src (i - start) else dst i

/-- Modelled from the spec: innerProd of the vector-kernel component
(linAlg, not under src/): accumulated sum of x[i]*y[i] for i < len. -/
def innerProd (x y : Vec) (len : Nat) : PF :=
  (List.range len).foldl (fun ip i => PF.add ip (PF.mul (x i) (y i))) (PF.ofQ 0)

/-- Modelled from the spec: addScaledArray of the vector-kernel
component (linAlg, not under src/): a[i] += sc * b[i] for i < len. -/
def addScaledArray (a b : Vec) (len : Nat) (sc : PF) : Vec :=
  mapIdxRange a 0 len (fun i ai => PF.add ai (PF.mul sc (b i)))

/-- Modelled from the spec: scaleArray of the vector-kernel component
applied from an offset (the C calls pass a shifted pointer):
a[i] *= sc for i in [start, start + len). -/
def scaleArraySeg (a : Vec) (sc : PF) (start len : Nat) : Vec :=
  mapIdxRange a start len (fun _ ai => PF.mul ai sc)

/-- Modelled from the spec: calcNorm of the vector-kernel component,
the euclidean norm of the first len entries. -/
def calcNorm (sq : ℚ → ℚ) (x : Vec) (len : Nat) : PF :=
  PF.sqrtE sq (innerProd x x len)

/-- Modelled from the spec: accumByA of the sparse-matrix component
(not under src/): y += A x for A in compressed-column form. -/
def accumByA (n : Nat) (Ap : Nat → Int) (Ai : Nat → Nat) (Ax : Vec)
    (x y : Vec) : Vec :=
  (List.range n).foldl
    (fun acc j =>
      (List.range ((Ap (j + 1)).toNat - (Ap j).toNat)).foldl
        (fun acc2 t =>
          let p := (Ap j).toNat + t
          fun i => if i = Ai p then PF.add (acc2 i) (PF.mul (Ax p) (x j)) else acc2 i)
        acc)
    y

/-- Modelled from the spec: accumByAtrans of the sparse-matrix component
(not under src/): acc[j] += sum over the column j of Ax[p] * y[Ai[p]]. -/
def accumByAtrans (n : Nat) (Ap : Nat → Int) (Ai : Nat → Nat) (Ax : Vec)
    (y acc : Vec) : Vec :=
  (List.range n).foldl
    (fun acc2 j =>
      fun i =>
        if i = j then
          (List.range ((Ap (j + 1)).toNat - (Ap j).toNat)).foldl
            (fun s t =>
              let p := (Ap j).toNat + t
              PF.add s (PF.mul (Ax p) (y (Ai p))))
            (acc2 j)
        else acc2 i)
    acc

/-- Problem data, the C Data struct.  The presence flags model the NULL
checks of validate; integer fields keep the signed idxint type. -/
structure Data where
  m : Int
  n : Int
  hasAx : Bool
  hasAi : Bool
  hasAp : Bool
  hasB : Bool
  hasC : Bool
  Ap : Nat → Int
  Ai : Nat → Nat
  Ax : Vec
  b : Vec
  c : Vec
  MAX_ITERS : Int
  EPS : ℚ
  ALPHA : ℚ
  RHO_X : ℚ
  UNDET_TOL : ℚ
  NORMALIZE : Bool
  WARM_START : Bool
  VERBOSE : Bool

/-- Workspace, the C Work struct (scratch buffers pr and dr are local in
the model; the method string is printing-only and omitted). -/
structure Work where
  l : Nat
  u : Vec
  v : Vec
  u_t : Vec
  u_prev : Vec
  h : Vec
  g : Vec
  gTh : PF
  D : Vec
  E : Vec
  meanNormRowA : PF
  sc_b : PF
  sc_c : PF
  scale : PF
  nm_b : PF
  nm_c : PF

/-- Solution triple, the C Sol struct. -/
structure Sol where
  x : Vec
  y : Vec
  s : Vec

/-- Info struct of the C interface. -/
structure Info where
  statusVal : Int
  iter : Int
  pobj : PF
  dobj : PF
  relGap : PF
  resPri : PF
  resDual : PF
  time : PF
  status : String

/-- Residuals struct local to the solve loop. -/
structure Residuals where
  resPri : PF
  resDual : PF
  relGap : PF
  cTx : PF
  bTy : PF
  tau : PF
  kap : PF

/-- External collaborators of the engine, all opaque to the core: libm
sqrt, the linear-system subsolver (rhs, warm-start hint or NULL,
iteration number), the cone projector (block of length m, iteration
number), the cone validators, the private init results, the timer, and
the normalizer outputs (the normalizer lives in normalize.h, not under
src/; its effect on b, c, A and the produced diagonals and scalings are
modelled from the spec as opaque values). -/
structure Externs where
  sq : ℚ → ℚ
  solveLinSys : Vec → Option Vec → Int → Vec
  projCone : Vec → Int → Vec
  validateCones : Int
  getFullConeDims : Int
  privateInitWork : Int
  initCone : Int
  tocq : PF
  normAx : Data → Vec
  normD : Vec
  normE : Vec
  normMean : PF
  normScale : PF
  normScB : PF
  normScC : PF
  normB : Data → Vec
  normC : Data → Vec
  normWS : Data → Work → Work
  unNormSolBC : Data → Work → Sol → Sol

/-- Distinct rejection reasons of validate, one per printed message of
the source (scs.c lines 144-202). -/
inductive VReason where
  | dataIncomplete
  | dimNonPositive
  | mLessThanN
  | apNotIncreasing
  | anzRange
  | rowsInconsistent
  | invalidCones
  | coneDimMismatch
  | maxItersNeg
  | epsNeg
  | alphaRange
  | rhoNeg
deriving DecidableEq

/-- Translation of validate (scs.c lines 144-202), recording which check
fires first; the integer result of the C function is -1 exactly when a
reason is produced. -/
def validateR (ex : Externs) (d : Data) : Option VReason :=
  if ¬(d.hasAx = true ∧ d.hasAi = true ∧ d.hasAp = true ∧ d.hasB = true ∧ d.hasC = true) then
    some .dataIncomplete
  else if d.m ≤ 0 ∨ d.n ≤ 0 then some .dimNonPositive
  else if d.m < d.n then some .mLessThanN
  else if (List.range d.n.toNat).any (fun i => d.Ap (i + 1) ≤ d.Ap i) then
    some .apNotIncreasing
  else if ((d.Ap d.n.toNat : ℚ) / (d.m : ℚ) > (d.n : ℚ)) ∨ d.Ap d.n.toNat ≤ 0 then
    some .anzRange
  else if ((((List.range (d.Ap d.n.toNat).toNat).foldl (fun r i => max r (d.Ai i)) 0 : Nat)) : Int) > d.m - 1 then
    some .rowsInconsistent
  else if ex.validateCones < 0 then some .invalidCones
  else if ex.getFullConeDims ≠ d.m then some .coneDimMismatch
  else if d.MAX_ITERS < 0 then some .maxItersNeg
  else if d.EPS < 0 then some .epsNeg
  else if d.ALPHA ≤ 0 ∨ d.ALPHA ≥ 2 then some .alphaRange
  else if d.RHO_X < 0 then some .rhoNeg
  else none

/-- Integer result of validate: -1 on rejection, 0 on acceptance. -/
def validate (ex : Externs) (d : Data) : Int :=
  match validateR ex d with
  | some _ => -1
  | none => 0

/-- Translation of failureDefaultReturn (scs.c lines 204-221): every
info field becomes NaN or the failure markers, and the solution vectors
are filled with NaN through scaleArray with a NaN factor. -/
def failureDefaultReturn (d : Data) (sol : Sol) (info : Info) : Sol × Info :=
  let info := { info with
    relGap := PF.nan, resPri := PF.nan, resDual := PF.nan,
    pobj := PF.nan, dobj := PF.nan, iter := -1, statusVal := -4,
    time := PF.nan, status := "Failure" }
  let sol := { sol with
    x := scaleArraySeg sol.x PF.nan 0 d.n.toNat,
    y := scaleArraySeg sol.y PF.nan 0 d.m.toNat,
    s := scaleArraySeg sol.s PF.nan 0 d.m.toNat }
  (sol, info)

/-- Translation of coldStartVars (scs.c lines 410-415). -/
def coldStartVars (ex : Externs) (w : Work) : Work :=
  let u0 : Vec := fun i => if i < w.l then PF.ofQ 0 else w.u i
  let v0 : Vec := fun i => if i < w.l then PF.ofQ 0 else w.v i
  let u1 : Vec := fun i => if i = w.l - 1 then PF.sqrtE ex.sq (PF.ofQ (w.l : ℚ)) else u0 i
  let v1 : Vec := fun i => if i = w.l - 1 then PF.sqrtE ex.sq (PF.ofQ (w.l : ℚ)) else v0 i
  { w with u := u1, v := v1 }

/-- Translation of warmStartVars (scs.c lines 400-408). -/
def warmStartVars (ex : Externs) (d : Data) (w : Work) (sol : Sol) : Work :=
  let n := d.n.toNat
  let mm := d.m.toNat
  let v0 := writeSeg w.v 0 n (fun _ => PF.ofQ 0)
  let u0 := writeSeg w.u 0 n sol.x
  let u1 := writeSeg u0 n mm sol.y
  let v1 := writeSeg v0 n mm sol.s
  let u2 : Vec := fun i => if i = w.l - 1 then PF.ofQ 1 else u1 i
  let v2 : Vec := fun i => if i = w.l - 1 then PF.ofQ 0 else v1 i
  let w := { w with u := u2, v := v2 }
  if d.NORMALIZE then ex.normWS d w else w

/-- Translation of updateWork (scs.c lines 93-109).  The normalizeBC
call (normalize.h, not under src/) is modelled from the spec as the
externally provided rescaling of b and c; it touches no other field of
the data. -/
def updateWork (ex : Externs) (d : Data) (w : Work) (sol : Sol) : Data × Work :=
  let n := d.n.toNat
  let mm := d.m.toNat
  let w := { w with nm_b := calcNorm ex.sq d.b mm, nm_c := calcNorm ex.sq d.c n }
  let d := if d.NORMALIZE then { d with b := ex.normB d, c := ex.normC d } else d
  let w := if d.WARM_START then warmStartVars ex d w sol else coldStartVars ex w
  let h1 := writeSeg w.h 0 n d.c
  let h2 := writeSeg h1 n mm d.b
  let g1 := writeSeg w.g 0 (w.l - 1) h2
  let gs := ex.solveLinSys g1 none (-1)
  let g2 : Vec := fun i => if i < w.l - 1 then gs i else g1 i
  let g3 := scaleArraySeg g2 (PF.ofQ (-1)) n mm
  let w := { w with h := h2, g := g3 }
  let w := { w with gTh := innerProd w.h w.g (w.l - 1) }
  (d, w)

/-- Translation of projectLinSys (scs.c lines 458-472): the in-place
transformation of u_t followed by the subsolver call and the final
update of the embedded tau coordinate. -/
def projectLinSys (ex : Externs) (d : Data) (w : Work) (iter : Int) : Work :=
  let n := d.n.toNat
  let mm := d.m.toNat
  let l := w.l
  let ut0 := writeSeg w.u_t 0 l w.u
  let ut1 := addScaledArray ut0 w.v l (PF.ofQ 1)
  let ut2 := scaleArraySeg ut1 (PF.ofQ d.RHO_X) 0 n
  let ut3 := addScaledArray ut2 w.h (l - 1) (PF.neg (ut2 (l - 1)))
  let ut4 := addScaledArray ut3 w.h (l - 1)
      (PF.div (PF.neg (innerProd ut3 w.g (l - 1))) (PF.add w.gTh (PF.ofQ 1)))
  let ut5 := scaleArraySeg ut4 (PF.ofQ (-1)) n mm
  let uts := ex.solveLinSys ut5 (some w.u) iter
  let ut6 : Vec := fun i => if i < l - 1 then uts i else ut5 i
  let ut7 : Vec := fun i =>
    if i = l - 1 then PF.add (ut6 (l - 1)) (innerProd ut6 w.h (l - 1)) else ut6 i
  { w with u_t := ut7 }

/-- Translation of projectCones (scs.c lines 530-543): the x block is
not relaxed, the y and tau block is relaxed with ALPHA, the external
cone module projects the middle m entries in place, and the last entry
is clamped at zero. -/
def projectCones (ex : Externs) (d : Data) (w : Work) (iter : Int) : Work :=
  let n := d.n.toNat
  let mm := d.m.toNat
  let l := w.l
  let u1 := mapIdxRange w.u 0 n (fun i _ => PF.sub (w.u_t i) (w.v i))
  let u2 := mapIdxRange u1 n (l - n) (fun i _ =>
    PF.sub (PF.add (PF.mul (PF.ofQ d.ALPHA) (w.u_t i))
                   (PF.mul (PF.ofQ (1 - d.ALPHA)) (w.u_prev i))) (w.v i))
  let blk := ex.projCone (shift u2 n) iter
  let u3 := mapIdxRange u2 n mm (fun i _ => blk (i - n))
  let u4 : Vec := fun i =>
    if i = l - 1 then
      (if PF.blt (u3 (l - 1)) (PF.ofQ 0) then PF.ofQ 0 else u3 (l - 1))
    else u3 i
  { w with u := u4 }

/-- Translation of updateDualVars (scs.c lines 506-528): when ALPHA is
within 1e-9 of 1 the unit-step branch is taken, otherwise the relaxed
update; the x block is untouched in both branches. -/
def updateDualVars (d : Data) (w : Work) : Work :=
  let n := d.n.toNat
  let l := w.l
  if |d.ALPHA - 1| < (1 : ℚ) / 1000000000 then
    { w with v := mapIdxRange w.v n (l - n) (fun i vi =>
        PF.add vi (PF.mul (PF.ofQ 1) (PF.sub (w.u i) (w.u_t i)))) }
  else
    { w with v := mapIdxRange w.v n (l - n) (fun i vi =>
        PF.add vi (PF.sub (PF.sub (w.u i) (PF.mul (PF.ofQ d.ALPHA) (w.u_t i)))
                          (PF.mul (PF.ofQ (1 - d.ALPHA)) (w.u_prev i)))) }

/-- Translation of fastCalcPrimalResid (scs.c lines 278-294), returning
the pair (norm of pr - b tau, norm of pr), both with the normalization
scaling applied entrywise. -/
def fastCalcPrimalResid (ex : Externs) (d : Data) (w : Work) : PF × PF :=
  let n := d.n.toNat
  let mm := d.m.toNat
  let tau := PF.abs (w.u (w.l - 1))
  let pr0 : Vec := fun i => if i < mm then w.u (n + i) else PF.nan
  let pr1 := addScaledArray pr0 (shift w.u_prev n) mm (PF.ofQ (d.ALPHA - 2))
  let pr2 := addScaledArray pr1 (shift w.u_t n) mm (PF.ofQ (1 - d.ALPHA))
  let pr3 := addScaledArray pr2 d.b mm (w.u_t (w.l - 1))
  let nmAxs := (List.range mm).foldl (fun s i =>
    let sc := if d.NORMALIZE then PF.div (w.D i) (PF.mul w.sc_b w.scale) else PF.ofQ 1
    let sc2 := PF.mul sc sc
    PF.add s (PF.mul (PF.mul (pr3 i) (pr3 i)) sc2)) (PF.ofQ 0)
  let pres := (List.range mm).foldl (fun s i =>
    let sc := if d.NORMALIZE then PF.div (w.D i) (PF.mul w.sc_b w.scale) else PF.ofQ 1
    let sc2 := PF.mul sc sc
    let e := PF.sub (pr3 i) (PF.mul (d.b i) tau)
    PF.add s (PF.mul (PF.mul e e) sc2)) (PF.ofQ 0)
  (PF.sqrtE ex.sq pres, PF.sqrtE ex.sq nmAxs)

/-- Translation of calcDualResid (scs.c lines 262-276), returning the
pair (norm of A-transpose y + c tau, norm of A-transpose y), both with
the normalization scaling applied entrywise. -/
def calcDualResid (ex : Externs) (d : Data) (w : Work) (y : Vec) (tau : PF) : PF × PF :=
  let n := d.n.toNat
  let dr := accumByAtrans n d.Ap d.Ai d.Ax y (fun _ => PF.ofQ 0)
  let nmATy := (List.range n).foldl (fun s i =>
    let sc := if d.NORMALIZE then PF.div (w.E i) (PF.mul w.sc_c w.scale) else PF.ofQ 1
    let sc2 := PF.mul sc sc
    PF.add s (PF.mul (PF.mul (dr i) (dr i)) sc2)) (PF.ofQ 0)
  let dres := (List.range n).foldl (fun s i =>
    let sc := if d.NORMALIZE then PF.div (w.E i) (PF.mul w.sc_c w.scale) else PF.ofQ 1
    let sc2 := PF.mul sc sc
    let e := PF.add (dr i) (PF.mul (d.c i) tau)
    PF.add s (PF.mul (PF.mul e e) sc2)) (PF.ofQ 0)
  (PF.sqrtE ex.sq dres, PF.sqrtE ex.sq nmATy)

/-- Translation of calcPrimalResid (scs.c lines 245-260), returning the
pair (norm of A x + s - b tau, norm of A x + s), scaled entrywise. -/
def calcPrimalResid (ex : Externs) (d : Data) (w : Work) (x s : Vec) (tau : PF) : PF × PF :=
  let n := d.n.toNat
  let mm := d.m.toNat
  let pr0 : Vec := fun i => if i < mm then PF.ofQ 0 else PF.nan
  let pr1 := accumByA n d.Ap d.Ai d.Ax x pr0
  let pr2 := addScaledArray pr1 s mm (PF.ofQ 1)
  let nmAxs := (List.range mm).foldl (fun acc i =>
    let sc := if d.NORMALIZE then PF.div (w.D i) (PF.mul w.sc_b w.scale) else PF.ofQ 1
    let sc2 := PF.mul sc sc
    PF.add acc (PF.mul (PF.mul (pr2 i) (pr2 i)) sc2)) (PF.ofQ 0)
  let pres := (List.range mm).foldl (fun acc i =>
    let sc := if d.NORMALIZE then PF.div (w.D i) (PF.mul w.sc_b w.scale) else PF.ofQ 1
    let sc2 := PF.mul sc sc
    let e := PF.sub (pr2 i) (PF.mul (d.b i) tau)
    PF.add acc (PF.mul (PF.mul e e) sc2)) (PF.ofQ 0)
  (PF.sqrtE ex.sq pres, PF.sqrtE ex.sq nmAxs)

/-- Normalization divide of exactConverged (scs.c lines 312-315 and
325-327): value / (scale * sc_c * sc_b) when NORMALIZE is set. -/
def normDiv (d : Data) (w : Work) (x : PF) : PF :=
  if d.NORMALIZE then PF.div x (PF.mul (PF.mul w.scale w.sc_c) w.sc_b) else x

/-- Raw tau of the convergence test: ABS(u[l-1]) (scs.c line 300). -/
def ecTau (w : Work) : PF := PF.abs (w.u (w.l - 1))

/-- Raw kappa of the convergence test: ABS(v[l-1]) (scs.c line 301). -/
def ecKapRaw (w : Work) : PF := PF.abs (w.v (w.l - 1))

/-- Normalized kappa of the convergence test (scs.c line 313). -/
def ecKap (d : Data) (w : Work) : PF := normDiv d w (ecKapRaw w)

/-- Normalized primal objective c dot x of the convergence test
(scs.c lines 311 and 314). -/
def ecCTx (d : Data) (w : Work) : PF := normDiv d w (innerProd w.u d.c d.n.toNat)

/-- Normalized dual pairing b dot y of the convergence test
(scs.c lines 324-327). -/
def ecBTy (d : Data) (w : Work) : PF :=
  normDiv d w (innerProd (shift w.u d.n.toNat) d.b d.m.toNat)

/-- Norm of the fast primal residual without the b tau shift
(scs.c line 310, second output of fastCalcPrimalResid). -/
def ecNmAxs (ex : Externs) (d : Data) (w : Work) : PF := (fastCalcPrimalResid ex d w).2

/-- Norm of the fast primal residual with the b tau shift
(scs.c line 310, first output of fastCalcPrimalResid). -/
def ecNmpr (ex : Externs) (d : Data) (w : Work) : PF := (fastCalcPrimalResid ex d w).1

/-- Norm of A-transpose y (scs.c line 323, second output). -/
def ecNmATy (ex : Externs) (d : Data) (w : Work) : PF :=
  (calcDualResid ex d w (shift w.u d.n.toNat) (ecTau w)).2

/-- Norm of A-transpose y + c tau (scs.c line 323, first output). -/
def ecNmdr (ex : Externs) (d : Data) (w : Work) : PF :=
  (calcDualResid ex d w (shift w.u d.n.toNat) (ecTau w)).1

/-- Unboundedness certificate value r.resPri of the convergence test
(scs.c line 317): nm_c * nmAxs / (-cTx) when cTx < 0, else NaN. -/
def ecResPriV (ex : Externs) (d : Data) (w : Work) : PF :=
  if PF.blt (ecCTx d w) (PF.ofQ 0) then
    PF.div (PF.mul w.nm_c (ecNmAxs ex d w)) (PF.neg (ecCTx d w))
  else PF.nan

/-- Infeasibility certificate value r.resDual of the convergence test
(scs.c line 329): nm_b * nmATy / (-bTy) when bTy < 0, else NaN. -/
def ecResDualV (ex : Externs) (d : Data) (w : Work) : PF :=
  if PF.blt (ecBTy d w) (PF.ofQ 0) then
    PF.div (PF.mul w.nm_b (ecNmATy ex d w)) (PF.neg (ecBTy d w))
  else PF.nan

/-- Relative primal residual of the solved test (scs.c line 337). -/
def ecRpri (ex : Externs) (d : Data) (w : Work) : PF :=
  PF.div (PF.div (ecNmpr ex d w) (PF.add (PF.ofQ 1) w.nm_b)) (ecTau w)

/-- Relative dual residual of the solved test (scs.c line 338). -/
def ecRdua (ex : Externs) (d : Data) (w : Work) : PF :=
  PF.div (PF.div (ecNmdr ex d w) (PF.add (PF.ofQ 1) w.nm_c)) (ecTau w)

/-- Relative gap of the solved test (scs.c line 339). -/
def ecGap (d : Data) (w : Work) : PF :=
  PF.div (PF.abs (PF.add (ecCTx d w) (ecBTy d w)))
         (PF.add (PF.add (ecTau w) (PF.abs (ecCTx d w))) (PF.abs (ecBTy d w)))

/-- Translation of exactConverged (scs.c lines 296-356): the sequential
certificate tests with the residual struct threaded exactly as the C
code assigns it. -/
def exactConverged (ex : Externs) (d : Data) (w : Work) (r : Residuals) : Int × Residuals :=
  let tau := ecTau w
  let kap := ecKap d w
  let cTx := ecCTx d w
  let bTy := ecBTy d w
  let r1 := { r with tau := ecTau w, kap := ecKapRaw w }
  let r2 := { r1 with resPri := ecResPriV ex d w }
  if PF.blt r2.resPri (PF.ofQ d.EPS) then (-1, r2)
  else
    let r3 := { r2 with resDual := ecResDualV ex d w }
    if PF.blt r3.resDual (PF.ofQ d.EPS) then (-2, r3)
    else
      let r4 := { r3 with relGap := PF.nan }
      if PF.blt kap tau then
        let rpri := ecRpri ex d w
        let rdua := ecRdua ex d w
        let gap := ecGap d w
        let r5 := { r4 with resPri := rpri, resDual := rdua, relGap := gap,
                            cTx := PF.div cTx tau, bTy := PF.div bTy tau }
        if PF.blt (PF.maxC (PF.maxC rpri rdua) gap) (PF.ofQ d.EPS) then (1, r5)
        else (0, r5)
      else (0, { r4 with cTx := PF.nan, bTy := PF.nan })

/-- Translation of converged (scs.c lines 223-243): the approximate
check is dead code; the exact check runs when iter is a multiple of
CONVERGED_INTERVAL = 20, otherwise 0 is returned and the residual
struct is left as it was. -/
def converged (ex : Externs) (d : Data) (w : Work) (r : Residuals) (iter : Nat) : Int × Residuals :=
  if iter % 20 = 0 then exactConverged ex d w r else (0, r)

/-- Translation of setx (scs.c lines 618-621). -/
def setx (d : Data) (w : Work) (sol : Sol) : Sol :=
  { sol with x := writeSeg sol.x 0 d.n.toNat w.u }

/-- Translation of sety (scs.c lines 608-611). -/
def sety (d : Data) (w : Work) (sol : Sol) : Sol :=
  { sol with y := writeSeg sol.y 0 d.m.toNat (shift w.u d.n.toNat) }

/-- Translation of sets (scs.c lines 613-616). -/
def sets (d : Data) (w : Work) (sol : Sol) : Sol :=
  { sol with s := writeSeg sol.s 0 d.m.toNat (shift w.v d.n.toNat) }

/-- Translation of solved (scs.c lines 545-551) with the assignment of
the returned status into info merged in. -/
def solvedCase (d : Data) (sol : Sol) (info : Info) (tau : PF) : Sol × Info :=
  ({ sol with
      x := scaleArraySeg sol.x (PF.div (PF.ofQ 1) tau) 0 d.n.toNat,
      y := scaleArraySeg sol.y (PF.div (PF.ofQ 1) tau) 0 d.m.toNat,
      s := scaleArraySeg sol.s (PF.div (PF.ofQ 1) tau) 0 d.m.toNat },
   { info with status := "Solved", statusVal := 1 })

/-- Translation of indeterminate (scs.c lines 553-559). -/
def indeterminateCase (d : Data) (sol : Sol) (info : Info) : Sol × Info :=
  ({ sol with
      x := scaleArraySeg sol.x PF.nan 0 d.n.toNat,
      y := scaleArraySeg sol.y PF.nan 0 d.m.toNat,
      s := scaleArraySeg sol.s PF.nan 0 d.m.toNat },
   { info with status := "Indeterminate", statusVal := -3 })

/-- Translation of infeasible (scs.c lines 561-567). -/
def infeasibleCase (d : Data) (sol : Sol) (info : Info) : Sol × Info :=
  ({ sol with
      x := scaleArraySeg sol.x PF.nan 0 d.n.toNat,
      s := scaleArraySeg sol.s PF.nan 0 d.m.toNat },
   { info with status := "Infeasible", statusVal := -2 })

/-- Translation of unbounded (scs.c lines 569-574). -/
def unboundedCase (d : Data) (sol : Sol) (info : Info) : Sol × Info :=
  ({ sol with y := scaleArraySeg sol.y PF.nan 0 d.m.toNat },
   { info with status := "Unbounded", statusVal := -1 })

/-- Translation of setSolution (scs.c lines 576-606). -/
def setSolution (ex : Externs) (d : Data) (w : Work) (sol : Sol) (info : Info) : Sol × Info :=
  let sol := sets d w (sety d w (setx d w sol))
  if info.statusVal = 0 ∨ info.statusVal = 1 then
    let tau := w.u (w.l - 1)
    let kap := PF.abs (w.v (w.l - 1))
    if PF.blt (PF.ofQ d.UNDET_TOL) tau && PF.blt kap tau then
      solvedCase d sol info tau
    else if PF.blt (calcNorm ex.sq w.u w.l)
        (PF.mul (PF.ofQ d.UNDET_TOL) (PF.sqrtE ex.sq (PF.ofQ (w.l : ℚ)))) then
      indeterminateCase d sol info
    else
      let bTy := innerProd d.b sol.y d.m.toNat
      let cTx := innerProd d.c sol.x d.n.toNat
      if PF.blt bTy cTx then infeasibleCase d sol info
      else unboundedCase d sol info
  else if info.statusVal = -2 then infeasibleCase d sol info
  else unboundedCase d sol info

/-- Translation of getInfo (scs.c lines 358-398). -/
def getInfo (ex : Externs) (d : Data) (w : Work) (sol : Sol) (info : Info) : Sol × Info :=
  let n := d.n.toNat
  let mm := d.m.toNat
  let pr := calcPrimalResid ex d w sol.x sol.s (PF.ofQ 1)
  let dr := calcDualResid ex d w sol.y (PF.ofQ 1)
  let cTx := normDiv d w (innerProd sol.x d.c n)
  let bTy := normDiv d w (innerProd sol.y d.b mm)
  let info := { info with pobj := cTx, dobj := PF.neg bTy }
  let out :=
    if info.statusVal = 1 then
      (sol, { info with
        relGap := PF.div (PF.abs (PF.add cTx bTy))
                         (PF.add (PF.add (PF.ofQ 1) (PF.abs cTx)) (PF.abs bTy)),
        resPri := PF.div pr.1 (PF.add (PF.ofQ 1) w.nm_b),
        resDual := PF.div dr.1 (PF.add (PF.ofQ 1) w.nm_c) })
    else if info.statusVal = -1 then
      ({ sol with
          x := scaleArraySeg sol.x (PF.div (PF.ofQ (-1)) cTx) 0 n,
          s := scaleArraySeg sol.s (PF.div (PF.ofQ (-1)) cTx) 0 mm },
       { info with
          dobj := PF.nan, relGap := PF.nan,
          resPri := PF.div (PF.mul w.nm_c pr.2) (PF.neg cTx),
          resDual := PF.nan, pobj := PF.ofQ (-1) })
    else
      ({ sol with y := scaleArraySeg sol.y (PF.div (PF.ofQ (-1)) bTy) 0 mm },
       { info with
          pobj := PF.nan, relGap := PF.nan, resPri := PF.nan,
          resDual := PF.div (PF.mul w.nm_b dr.2) (PF.neg bTy),
          dobj := PF.ofQ (-1) })
  (out.1, { out.2 with time := ex.tocq })

/-- Translation of initWork (scs.c lines 418-456).  The normalizeA call
(normalize.h, not under src/) is modelled from the spec: it rescales the
values of A and supplies the equilibration diagonals and scaling
scalars, all provided by the opaque normalizer fields of Externs.  The
data with the rescaled A is returned alongside the workspace since the C
code mutates it in place. -/
def initWork (ex : Externs) (d : Data) : Option (Data × Work) :=
  let base : Work :=
    { l := d.n.toNat + d.m.toNat + 1,
      u := fun _ => PF.nan, v := fun _ => PF.nan,
      u_t := fun _ => PF.nan, u_prev := fun _ => PF.nan,
      h := fun _ => PF.nan, g := fun _ => PF.nan, gTh := PF.nan,
      D := fun _ => PF.nan, E := fun _ => PF.nan,
      meanNormRowA := PF.nan, sc_b := PF.nan, sc_c := PF.nan,
      scale := PF.nan, nm_b := PF.nan, nm_c := PF.nan }
  let dw :=
    if d.NORMALIZE then
      ({ d with Ax := ex.normAx d },
       { base with D := ex.normD, E := ex.normE, meanNormRowA := ex.normMean,
                   sc_b := ex.normScB, sc_c := ex.normScC, scale := ex.normScale })
    else
      (d, { base with meanNormRowA := PF.ofQ 0, sc_c := PF.ofQ 1,
                      sc_b := PF.ofQ 1, scale := PF.ofQ 1 })
  if ex.privateInitWork < 0 then none
  else if ex.initCone < 0 then none
  else some dw

/-- Translation of scs_init (scs.c lines 66-84); the NULL checks on the
data and cone pointers are not modelled since the model always receives
values. -/
def scs_init (ex : Externs) (d : Data) (sol : Sol) (info : Info) :
    Option (Data × Work) × Sol × Info :=
  if validate ex d < 0 then
    let fsi := failureDefaultReturn d sol info
    (none, fsi.1, fsi.2)
  else
    match initWork ex d with
    | none =>
      let fsi := failureDefaultReturn d sol info
      (none, fsi.1, fsi.2)
    | some dw => (some dw, sol, info)

/-- One iteration of the solve loop (scs.c lines 120-125): copy of
u_prev, linear-system projection, cone projection, dual update. -/
def iterStep (ex : Externs) (d : Data) (w : Work) (i : Nat) : Work :=
  let w1 := { w with u_prev := writeSeg w.u_prev 0 w.l w.u }
  let w2 := projectLinSys ex d w1 (i : Int)
  let w3 := projectCones ex d w2 (i : Int)
  updateDualVars d w3

/-- Solve loop of scs_solve (scs.c lines 120-133) as a fuel recursion:
returns the final loop counter, workspace, residuals and the status the
loop ended with (0 when the iteration budget ran out). -/
def solveLoop (ex : Externs) (d : Data) : Nat → Nat → Work → Residuals →
    Nat × Work × Residuals × Int
  | 0, i, w, r => (i, w, r, 0)
  | fuel + 1, i, w, r =>
    let w4 := iterStep ex d w i
    let sr := converged ex d w4 r i
    if sr.1 ≠ 0 then (i, w4, sr.2, sr.1)
    else solveLoop ex d fuel (i + 1) w4 sr.2

/-- Residual struct before the loop writes it (uninitialized in C). -/
def rInit : Residuals :=
  ⟨PF.nan, PF.nan, PF.nan, PF.nan, PF.nan, PF.nan, PF.nan⟩

/-- Updated data and loop outcome of one solve: updateWork followed by
the iteration loop with budget MAX_ITERS. -/
def loopRun (ex : Externs) (d : Data) (w : Work) (sol : Sol) :
    Nat × Work × Residuals × Int :=
  let dw := updateWork ex d w sol
  solveLoop ex dw.1 dw.1.MAX_ITERS.toNat 0 dw.2 rInit

/-- Translation of scs_solve (scs.c lines 111-142): status reset,
updateWork, the loop, setSolution, the iteration count, getInfo and the
final unnormalization of the solution. -/
def scs_solve (ex : Externs) (d : Data) (w : Work) (sol : Sol) (info : Info) :
    Data × Work × Sol × Info :=
  let info1 := { info with statusVal := 0 }
  let d1 := (updateWork ex d w sol).1
  let out := loopRun ex d w sol
  let w2 := out.2.1
  let info2 := { info1 with statusVal := out.2.2.2 }
  let si := setSolution ex d1 w2 sol info2
  let info4 := { si.2 with iter := (out.1 : Int) }
  let si2 := getInfo ex d1 w2 si.1 info4
  let sol4 := if d1.NORMALIZE then ex.unNormSolBC d1 w2 si2.1 else si2.1
  (d1, w2, sol4, si2.2)

/-- Translation of the top-level scs (scs.c lines 56-64): init, solve,
finish; the returned integer is the final statusVal, or FAILURE when
init failed. -/
def scs (ex : Externs) (d : Data) (sol : Sol) (info : Info) : Sol × Info × Int :=
  match scs_init ex d sol info with
  | (none, sol2, info2) => (sol2, info2, -4)
  | (some dw, sol2, info2) =>
    let r := scs_solve ex dw.1 dw.2 sol2 info2
    (r.2.2.1, r.2.2.2, (r.2.2.2).statusVal)

/-- Condition under which printFooter (scs.c line 690) emits the line
Hit MAX_ITERS, solution may be inaccurate. -/
def footerHitMaxIters (d : Data) (info : Info) : Bool :=
  info.iter == d.MAX_ITERS

/-- Clamp at zero, the max(x, 0) of the specification wording. -/
def PF.maxZ (x : PF) : PF := if PF.blt x (PF.ofQ 0) then PF.ofQ 0 else x

/-- Specification-side step 1 of the linear-system projection: set
u_t to u + v. -/
def plsStep1 (w : Work) : Vec :=
  fun i => if i < w.l then PF.add (w.u i) (w.v i) else w.u_t i

/-- Specification-side step 2: scale the first n entries by RHO_X. -/
def plsStep2 (d : Data) (w : Work) : Vec :=
  fun i => if i < d.n.toNat then PF.mul (PF.ofQ d.RHO_X) (plsStep1 w i) else plsStep1 w i

/-- Specification-side step 3: subtract h times the last entry from the
first l - 1 entries. -/
def plsStep3 (d : Data) (w : Work) : Vec :=
  fun i =>
    if i < w.l - 1 then PF.sub (plsStep2 d w i) (PF.mul (w.h i) (plsStep2 d w (w.l - 1)))
    else plsStep2 d w i

/-- Specification-side step 4: subtract h times the inner product of
u_t with g over gTh + 1 from the first l - 1 entries. -/
def plsStep4 (d : Data) (w : Work) : Vec :=
  fun i =>
    if i < w.l - 1 then
      PF.sub (plsStep3 d w i)
        (PF.mul (w.h i)
          (PF.div (innerProd (plsStep3 d w) w.g (w.l - 1)) (PF.add w.gTh (PF.ofQ 1))))
    else plsStep3 d w i

/-- Specification-side step 5: negate the middle m entries. -/
def plsStep5 (d : Data) (w : Work) : Vec :=
  fun i =>
    if d.n.toNat ≤ i ∧ i < d.n.toNat + d.m.toNat then PF.neg (plsStep4 d w i)
    else plsStep4 d w i

/-- Specification-side step 6 and 7: the subsolver replaces the first
l - 1 entries in place, warm-started from u. -/
def plsStep7 (ex : Externs) (d : Data) (w : Work) (iter : Int) : Vec :=
  fun i =>
    if i < w.l - 1 then ex.solveLinSys (plsStep5 d w) (some w.u) iter i
    else plsStep5 d w i

/-- Specification-side final step: add the inner product of the solved
block with h to the last entry. -/
def plsStep8 (ex : Externs) (d : Data) (w : Work) (iter : Int) : Vec :=
  fun i =>
    if i = w.l - 1 then
      PF.add (plsStep7 ex d w iter (w.l - 1)) (innerProd (plsStep7 ex d w iter) w.h (w.l - 1))
    else plsStep7 ex d w iter i

/-- Specification-side description of the linear-system projection,
written after the wording of the claim: the seven steps in order, as
pointwise formulas. -/
def projectLinSysSpec (ex : Externs) (d : Data) (w : Work) (iter : Int) : Work :=
  { w with u_t := plsStep8 ex d w iter }

/-- Specification-side relaxed vector of the cone-projection phase: no
over-relaxation on the x block, ALPHA relaxation against u_prev on the
y and tau block, minus the dual iterate. -/
def pcsRelax (d : Data) (w : Work) : Vec :=
  fun i =>
    if i < d.n.toNat then PF.sub (w.u_t i) (w.v i)
    else if i < w.l then
      PF.sub (PF.add (PF.mul (PF.ofQ d.ALPHA) (w.u_t i))
                     (PF.mul (PF.ofQ (1 - d.ALPHA)) (w.u_prev i))) (w.v i)
    else w.u i

/-- Specification-side description of the cone-projection phase: relax,
project the middle m entries through the cone module with the iteration
index, clamp the last entry at max with zero. -/
def projectConesSpec (ex : Externs) (d : Data) (w : Work) (iter : Int) : Work :=
  let n := d.n.toNat
  let proj : Vec := fun i =>
    if n ≤ i ∧ i < n + d.m.toNat then ex.projCone (shift (pcsRelax d w) n) iter (i - n)
    else pcsRelax d w i
  let fin : Vec := fun i => if i = w.l - 1 then PF.maxZ (proj (w.l - 1)) else proj i
  { w with u := fin }

/-- Unboundedness condition of the claims: cTx < 0 and
nm_c * nm_Axs / (-cTx) < EPS. -/
def unbDetect (ex : Externs) (d : Data) (w : Work) : Prop :=
  PF.blt (ecCTx d w) (PF.ofQ 0) = true ∧
  PF.blt (PF.div (PF.mul w.nm_c (ecNmAxs ex d w)) (PF.neg (ecCTx d w))) (PF.ofQ d.EPS) = true

/-- Infeasibility condition of the claims: bTy < 0 and
nm_b * nm_ATy / (-bTy) < EPS. -/
def infDetect (ex : Externs) (d : Data) (w : Work) : Prop :=
  PF.blt (ecBTy d w) (PF.ofQ 0) = true ∧
  PF.blt (PF.div (PF.mul w.nm_b (ecNmATy ex d w)) (PF.neg (ecBTy d w))) (PF.ofQ d.EPS) = true

/-- Solved condition of the claims: tau > kap and the max of the scaled
primal residual, scaled dual residual and relative gap is below EPS,
with the divisions written as in the claim text. -/
def optDetect (ex : Externs) (d : Data) (w : Work) : Prop :=
  PF.blt (ecKap d w) (ecTau w) = true ∧
  PF.blt
    (PF.maxC
      (PF.maxC
        (PF.div (ecNmpr ex d w) (PF.mul (PF.add (PF.ofQ 1) w.nm_b) (ecTau w)))
        (PF.div (ecNmdr ex d w) (PF.mul (PF.add (PF.ofQ 1) w.nm_c) (ecTau w))))
      (ecGap d w))
    (PF.ofQ d.EPS) = true

/-- Zero vector. -/
def vZero : Vec := fun _ => PF.ofQ 0

/-- Externals used by the concrete evaluations: identity subsolver and
cone projector, zero sqrt model (only ever applied to zero there),
accepting cone checks and trivial normalizer. -/
def exZ : Externs :=
  { sq := fun _ => 0,
    solveLinSys := fun b _ _ => b,
    projCone := fun x _ => x,
    validateCones := 0,
    getFullConeDims := 1,
    privateInitWork := 0,
    initCone := 0,
    tocq := PF.nan,
    normAx := fun d => d.Ax,
    normD := fun _ => PF.nan,
    normE := fun _ => PF.nan,
    normMean := PF.ofQ 1,
    normScale := PF.ofQ 1,
    normScB := PF.ofQ 1,
    normScC := PF.ofQ 1,
    normB := fun d => d.b,
    normC := fun d => d.c,
    normWS := fun _ w => w,
    unNormSolBC := fun _ _ s => s }

/-- Tiny well-formed data with one variable and one row, all-zero b and
c, used by the concrete evaluations. -/
def dZ : Data :=
  { m := 1, n := 1,
    hasAx := true, hasAi := true, hasAp := true, hasB := true, hasC := true,
    Ap := fun i => if i = 0 then 0 else 1,
    Ai := fun _ => 0,
    Ax := fun _ => PF.ofQ 1,
    b := vZero, c := vZero,
    MAX_ITERS := 10, EPS := 1 / 1000, ALPHA := 3 / 2, RHO_X := 1 / 1000,
    UNDET_TOL := 1 / 1000000000,
    NORMALIZE := false, WARM_START := false, VERBOSE := false }

/-- All-zero workspace of length 3 matching dZ. -/
def wZ : Work :=
  { l := 3, u := vZero, v := vZero, u_t := vZero, u_prev := vZero,
    h := vZero, g := vZero, gTh := PF.ofQ 0,
    D := fun _ => PF.nan, E := fun _ => PF.nan, meanNormRowA := PF.ofQ 0,
    sc_b := PF.ofQ 1, sc_c := PF.ofQ 1, scale := PF.ofQ 1,
    nm_b := PF.ofQ 0, nm_c := PF.ofQ 0 }

/-- All-zero solution triple. -/
def solZ : Sol := { x := vZero, y := vZero, s := vZero }

/-- Blank info record. -/
def infoZ : Info :=
  { statusVal := 0, iter := 0, pobj := PF.nan, dobj := PF.nan,
    relGap := PF.nan, resPri := PF.nan, resDual := PF.nan,
    time := PF.nan, status := "" }

/-- Data of the NaN counterexample: c makes cTx vanish at the chosen
iterate so the unboundedness ratio is NaN, while b makes bTy negative
with a zero matrix column so the infeasibility ratio is zero. -/
def dC6 : Data :=
  { dZ with
    b := fun _ => PF.ofQ (-1),
    c := fun _ => PF.ofQ 1,
    Ax := fun _ => PF.ofQ 0 }

/-- Workspace of the NaN counterexample: x entry zero, y entry one. -/
def wC6 : Work :=
  { wZ with
    u := fun i => if i = 1 then PF.ofQ 1 else PF.ofQ 0,
    nm_b := PF.ofQ 1, nm_c := PF.ofQ 1 }

/-- Externals of the iteration-limit evaluation: libm sqrt is exact on
the only argument it receives there, the square 4. -/
def exC7 : Externs := { exZ with sq := fun q => if q = 4 then 2 else 0, getFullConeDims := 2 }

/-- Data of the iteration-limit evaluation: valid problem with n = 1,
m = 2 and a zero iteration budget. -/
def dC7 : Data :=
  { dZ with m := 2, MAX_ITERS := 0 }

/-- Workspace of the iteration-limit evaluation, length 4; the solve
cold-starts it, so only the length matters. -/
def wC7 : Work :=
  { wZ with
    l := 4,
    u := (fun _ => PF.nan), v := (fun _ => PF.nan),
    u_t := (fun _ => PF.nan), u_prev := (fun _ => PF.nan),
    h := (fun _ => PF.nan), g := (fun _ => PF.nan), gTh := PF.nan }

/-- Externals of the dual-variable counterexample: the subsolver writes
the constant vector with first entry minus one half. -/
def exC8 : Externs :=
  { exZ with
    solveLinSys := fun _ _ _ => fun i => if i = 0 then PF.ofQ (-(1 : ℚ) / 2) else PF.ofQ 0 }

/-- Data of the dual-variable counterexample: ALPHA is inside the open
sliver between 1 and the 1e-9 branch tolerance of updateDualVars; no
primal variables and one row, so the embedding has length two. -/
def dC8 : Data :=
  { dZ with n := 0, m := 1, ALPHA := 1 + 1 / 10000000000 }

/-- Workspace of the dual-variable counterexample: tau entry one,
h = (1, 0), everything else zero. -/
def wC8 : Work :=
  { wZ with
    l := 2,
    u := fun i => if i = 1 then PF.ofQ 1 else PF.ofQ 0,
    h := fun i => if i = 0 then PF.ofQ 1 else PF.ofQ 0 }

/-- Invalid data used by the validation witness: nonpositive row count. -/
def dBad : Data := { dZ with m := 0 }

/-- Iterates of the solve loop without the convergence exit, used to
state per-iteration invariants: after k steps of the three-phase
iteration. -/
def iterN (ex : Externs) (d : Data) (w : Work) : Nat → Work
  | 0 => w
  | k + 1 => iterStep ex d (iterN ex d w k) k

/-- Disjunction of the twelve rejection conditions of the validation
claim, in the order and wording of the claim. -/
def rejectCond (ex : Externs) (d : Data) : Prop :=
  (d.hasAx = false ∨ d.hasAi = false ∨ d.hasAp = false ∨ d.hasB = false ∨ d.hasC = false) ∨
  (d.m ≤ 0 ∨ d.n ≤ 0) ∨
  d.m < d.n ∨
  (∃ i, i < d.n.toNat ∧ d.Ap (i + 1) ≤ d.Ap i) ∨
  (d.Ap d.n.toNat ≤ 0 ∨ (d.Ap d.n.toNat : ℚ) / (d.m : ℚ) > (d.n : ℚ)) ∨
  (∃ p, p < (d.Ap d.n.toNat).toNat ∧ ((d.Ai p : Int) > d.m - 1)) ∨
  ex.validateCones < 0 ∨
  ex.getFullConeDims ≠ d.m ∨
  d.MAX_ITERS < 0 ∨
  d.EPS < 0 ∨
  (d.ALPHA ≤ 0 ∨ d.ALPHA ≥ 2) ∨
  d.RHO_X < 0

/-- Solved condition of the extraction claim: tau above UNDET_TOL and
above kappa, with tau = u[l-1] unsigned and kappa = the absolute value
of v[l-1]. -/
def ssSolvedCond (d : Data) (w : Work) : Prop :=
  PF.blt (PF.ofQ d.UNDET_TOL) (w.u (w.l - 1)) = true ∧
  PF.blt (PF.abs (w.v (w.l - 1))) (w.u (w.l - 1)) = true

/-- Indeterminate condition of the extraction claim: the norm of u is
below UNDET_TOL times the square root of l. -/
def ssIndetCond (ex : Externs) (d : Data) (w : Work) : Prop :=
  PF.blt (calcNorm ex.sq w.u w.l)
    (PF.mul (PF.ofQ d.UNDET_TOL) (PF.sqrtE ex.sq (PF.ofQ (w.l : ℚ)))) = true

/-- Infeasible condition of the extraction claim: the pairing of b with
the copied y block is below the pairing of c with the copied x block. -/
def ssInfCond (d : Data) (w : Work) : Prop :=
  PF.blt (innerProd d.b (shift w.u d.n.toNat) d.m.toNat)
         (innerProd d.c w.u d.n.toNat) = true

/-- Pointwise description of the element-loop combinator. -/
theorem mapIdxRange_apply (a : Vec) (start len : Nat) (f : Nat → PF → PF) (j : Nat) :
    mapIdxRange a start len f j =
      if start ≤ j ∧ j < start + len then f j (a j) else a j := by
  induction len with
  | zero =>
    simp only [mapIdxRange, List.range_zero, List.foldl_nil]
    rw [if_neg (by omega)]
  | succ k ih =>
    have hstep : mapIdxRange a start (k + 1) f j =
        (if j = start + k then f j (mapIdxRange a start k f j)
         else mapIdxRange a start k f j) := by
      unfold mapIdxRange
      rw [List.range_succ, List.foldl_append, List.foldl_cons, List.foldl_nil]
    rw [hstep]
    by_cases hj : j = start + k
    · subst hj
      have hno : ¬(start ≤ start + k ∧ start + k < start + k) := by omega
      rw [if_pos rfl, ih, if_neg hno, if_pos (by omega)]
    · rw [if_neg hj, ih]
      by_cases hin : start ≤ j ∧ j < start + k
      · rw [if_pos hin, if_pos ⟨hin.1, by omega⟩]
      · rw [if_neg hin, if_neg (by omega)]

/-- Unfolding of innerProd at a successor length. -/
theorem innerProd_succ (x y : Vec) (k : Nat) :
    innerProd x y (k + 1) = PF.add (innerProd x y k) (PF.mul (x k) (y k)) := by
  unfold innerProd
  rw [List.range_succ, List.foldl_append, List.foldl_cons, List.foldl_nil]

/-- Congruence of innerProd in both arguments below the length. -/
theorem innerProd_congr (x x2 y y2 : Vec) (len : Nat)
    (hx : ∀ i, i < len → x i = x2 i) (hy : ∀ i, i < len → y i = y2 i) :
    innerProd x y len = innerProd x2 y2 len := by
  induction len with
  | zero => rfl
  | succ k ih =>
    rw [innerProd_succ, innerProd_succ,
        ih (fun i hi => hx i (by omega)) (fun i hi => hy i (by omega)),
        hx k (by omega), hy k (by omega)]

/-- Multiplying by one is the identity. -/
theorem PF.one_mul (x : PF) : PF.mul (PF.ofQ 1) x = x := by
  cases x <;> simp [PF.mul, PF.ofQ]

/-- Multiplying by minus one is negation. -/
theorem PF.mul_negone (x : PF) : PF.mul x (PF.ofQ (-1)) = PF.neg x := by
  cases x <;> simp [PF.mul, PF.neg, PF.ofQ]

/-- Commutativity of the scalar product. -/
theorem PF.mul_comm (x y : PF) : PF.mul x y = PF.mul y x := by
  cases x <;> cases y <;> simp [PF.mul]
  ring

/-- Multiplication by NaN yields NaN. -/
theorem PF.mul_nan (x : PF) : PF.mul x PF.nan = PF.nan := by
  cases x <;> rfl

/-- Subtracting zero is the identity. -/
theorem PF.sub_zero (x : PF) : PF.sub x (PF.ofQ 0) = x := by
  cases x <;> simp [PF.sub, PF.ofQ]

/-- Adding a product with a negated factor is subtracting the product. -/
theorem PF.add_mul_neg (a t h : PF) :
    PF.add a (PF.mul (PF.neg t) h) = PF.sub a (PF.mul h t) := by
  cases a <;> cases t <;> cases h <;> simp [PF.add, PF.mul, PF.neg, PF.sub]
  ring

/-- Negating the numerator negates the quotient. -/
theorem PF.div_neg_left (p q : PF) : PF.div (PF.neg p) q = PF.neg (PF.div p q) := by
  cases p with
  | none => cases q <;> rfl
  | some p =>
    cases q with
    | none => rfl
    | some q =>
      by_cases hq : q = 0
      · simp [PF.div, PF.neg, hq]
      · simp [PF.div, PF.neg, hq, neg_div]

/-- Adding a product whose factor is a negated quotient is subtracting
the product with the plain quotient. -/
theorem PF.add_mul_divneg (a h p q : PF) :
    PF.add a (PF.mul (PF.div (PF.neg p) q) h) = PF.sub a (PF.mul h (PF.div p q)) := by
  rw [PF.div_neg_left]
  exact PF.add_mul_neg a (PF.div p q) h

/-- Dividing twice is dividing by the product. -/
theorem PF.divDiv (a b c : PF) :
    PF.div (PF.div a b) c = PF.div a (PF.mul b c) := by
  cases a with
  | none => cases b <;> cases c <;> rfl
  | some a =>
    cases b with
    | none => cases c <;> rfl
    | some b =>
      cases c with
      | none => by_cases hb : b = 0 <;> simp [PF.div, PF.mul, hb]
      | some c =>
        by_cases hb : b = 0
        · simp [PF.div, PF.mul, hb]
        · by_cases hc : c = 0
          · simp [PF.div, PF.mul, hb, hc]
          · simp [PF.div, PF.mul, hb, hc, mul_eq_zero, div_div]

/-- Multiplying by the inverse is dividing. -/
theorem PF.mulOneDiv (x t : PF) :
    PF.mul x (PF.div (PF.ofQ 1) t) = PF.div x t := by
  cases x with
  | none => cases t with
    | none => rfl
    | some t => by_cases ht : t = 0 <;> simp [PF.mul, PF.div, PF.ofQ, ht]
  | some x =>
    cases t with
    | none => rfl
    | some t =>
      by_cases ht : t = 0
      · simp [PF.mul, PF.div, PF.ofQ, ht]
      · simp only [PF.mul, PF.div, PF.ofQ, ht, if_false]
        rw [mul_one_div]

/-- Comparisons with NaN on the left are false. -/
theorem PF.blt_nan_left (x : PF) : PF.blt PF.nan x = false := by
  cases x <;> rfl

/-- The MAX macro with NaN as second argument yields NaN. -/
theorem PF.maxC_nan_right (x : PF) : PF.maxC x PF.nan = PF.nan := by
  simp [PF.maxC, PF.blt_nan_left]

/-- Step 1 of the linear-system projection agrees with the
specification form: copying u and adding v with unit factor is the
pointwise sum. -/
theorem pls1_eq (w : Work) :
    addScaledArray (writeSeg w.u_t 0 w.l w.u) w.v w.l (PF.ofQ 1) = plsStep1 w := by
  funext i
  rw [addScaledArray, mapIdxRange_apply]
  unfold plsStep1 writeSeg
  by_cases h : i < w.l
  · rw [if_pos (by omega), if_pos (by omega), if_pos h, PF.one_mul]
    simp
  · rw [if_neg (by omega), if_neg (by omega), if_neg h]

/-- Step 2 agrees with the specification form: scaling the first n
entries, with the factor on the left. -/
theorem pls2_eq (d : Data) (w : Work) :
    scaleArraySeg (plsStep1 w) (PF.ofQ d.RHO_X) 0 d.n.toNat = plsStep2 d w := by
  funext i
  rw [scaleArraySeg, mapIdxRange_apply]
  unfold plsStep2
  by_cases h : i < d.n.toNat
  · rw [if_pos (by omega), if_pos h, PF.mul_comm]
  · rw [if_neg (by omega), if_neg h]

/-- Step 3 agrees with the specification form: adding h scaled by the
negated last entry is subtracting h times the last entry. -/
theorem pls3_eq (d : Data) (w : Work) :
    addScaledArray (plsStep2 d w) w.h (w.l - 1) (PF.neg (plsStep2 d w (w.l - 1))) =
      plsStep3 d w := by
  funext i
  rw [addScaledArray, mapIdxRange_apply]
  unfold plsStep3
  by_cases h : i < w.l - 1
  · rw [if_pos (by omega), if_pos h, PF.add_mul_neg]
  · rw [if_neg (by omega), if_neg h]

/-- Step 4 agrees with the specification form: adding h scaled by the
negated quotient is subtracting h times the plain quotient. -/
theorem pls4_eq (d : Data) (w : Work) :
    addScaledArray (plsStep3 d w) w.h (w.l - 1)
      (PF.div (PF.neg (innerProd (plsStep3 d w) w.g (w.l - 1))) (PF.add w.gTh (PF.ofQ 1))) =
      plsStep4 d w := by
  funext i
  rw [addScaledArray, mapIdxRange_apply]
  unfold plsStep4
  by_cases h : i < w.l - 1
  · rw [if_pos (by omega), if_pos h, PF.add_mul_divneg]
  · rw [if_neg (by omega), if_neg h]

/-- Step 5 agrees with the specification form: scaling the middle m
entries by minus one is negating them. -/
theorem pls5_eq (d : Data) (w : Work) :
    scaleArraySeg (plsStep4 d w) (PF.ofQ (-1)) d.n.toNat d.m.toNat = plsStep5 d w := by
  funext i
  rw [scaleArraySeg, mapIdxRange_apply]
  unfold plsStep5
  by_cases h : d.n.toNat ≤ i ∧ i < d.n.toNat + d.m.toNat
  · rw [if_pos h, if_pos h, PF.mul_negone]
  · rw [if_neg h, if_neg h]

/-- The u_t vector written by the linear-system projection, in the
pointwise step form, used to evaluate it at single indices. -/
theorem projectLinSysUt (ex : Externs) (d : Data) (w : Work) (iter : Int) :
    (projectLinSys ex d w iter).u_t = plsStep8 ex d w iter := by
  simp only [projectLinSys]
  rw [pls1_eq, pls2_eq, pls3_eq, pls4_eq, pls5_eq]
  rfl

/-- Claim C3: the linear-system projection of each iteration performs
exactly the seven steps of the specification, in order: u_t becomes
u + v, the first n entries are scaled by RHO_X, h times u_t[l-1] and
then h times the inner product of u_t with g over gTh + 1 are
subtracted from the first l - 1 entries, the middle m entries are
negated, the subsolver replaces u_t[0..l-1) in place warm-started from
u, and finally u_t[l-1] is increased by the inner product of the solved
block with h. -/
theorem claim3_linsys_projection (ex : Externs) (d : Data) (w : Work) (iter : Int) :
    projectLinSys ex d w iter = projectLinSysSpec ex d w iter := by
  simp only [projectLinSys, projectLinSysSpec]
  rw [pls1_eq, pls2_eq, pls3_eq, pls4_eq, pls5_eq]
  congr 1

/-- The relaxation loops of the cone-projection phase agree with the
specification form. -/
theorem pcs_relax_eq (d : Data) (w : Work) :
    mapIdxRange
      (mapIdxRange w.u 0 d.n.toNat (fun i _ => PF.sub (w.u_t i) (w.v i)))
      d.n.toNat (w.l - d.n.toNat)
      (fun i _ =>
        PF.sub (PF.add (PF.mul (PF.ofQ d.ALPHA) (w.u_t i))
                       (PF.mul (PF.ofQ (1 - d.ALPHA)) (w.u_prev i))) (w.v i)) =
      pcsRelax d w := by
  funext i
  rw [mapIdxRange_apply, mapIdxRange_apply]
  unfold pcsRelax
  by_cases h1 : i < d.n.toNat
  · rw [if_neg (by omega), if_pos (by omega), if_pos h1]
  · by_cases h2 : i < w.l
    · rw [if_pos (by omega), if_neg h1, if_pos h2]
    · rw [if_neg (by omega), if_neg (by omega), if_neg h1, if_neg h2]

/-- Claim C4: the cone-projection phase sets the x block to
u_t - v without over-relaxation, relaxes the remaining entries with
ALPHA against u_prev, projects the middle m entries through the cone
module with the iteration index, and clamps the last entry at
max(u[l-1], 0). -/
theorem claim4_cone_projection (ex : Externs) (d : Data) (w : Work) (iter : Int) :
    projectCones ex d w iter = projectConesSpec ex d w iter := by
  simp only [projectCones, projectConesSpec]
  rw [pcs_relax_eq]
  congr 1
  funext i
  simp only [mapIdxRange_apply, PF.maxZ]

/-- Branch structure of the exact convergence test: the returned status
is determined by the three sequential comparisons of the source. -/
theorem exactConverged_fst (ex : Externs) (d : Data) (w : Work) (r : Residuals) :
    (exactConverged ex d w r).1 =
      (if PF.blt (ecResPriV ex d w) (PF.ofQ d.EPS) then (-1 : Int)
       else if PF.blt (ecResDualV ex d w) (PF.ofQ d.EPS) then -2
       else if PF.blt (ecKap d w) (ecTau w) &&
               PF.blt (PF.maxC (PF.maxC (ecRpri ex d w) (ecRdua ex d w)) (ecGap d w))
                 (PF.ofQ d.EPS) then 1
       else 0) := by
  simp only [exactConverged]
  cases h1 : PF.blt (ecResPriV ex d w) (PF.ofQ d.EPS) <;>
  cases h2 : PF.blt (ecResDualV ex d w) (PF.ofQ d.EPS) <;>
  cases h3 : PF.blt (ecKap d w) (ecTau w) <;>
  cases h4 : PF.blt (PF.maxC (PF.maxC (ecRpri ex d w) (ecRdua ex d w)) (ecGap d w))
      (PF.ofQ d.EPS) <;>
    simp [h1, h2, h3, h4]

/-- The first comparison fires exactly under the unboundedness
condition of the claim. -/
theorem unbDetect_iff (ex : Externs) (d : Data) (w : Work) :
    PF.blt (ecResPriV ex d w) (PF.ofQ d.EPS) = true ↔ unbDetect ex d w := by
  unfold ecResPriV unbDetect
  cases hc : PF.blt (ecCTx d w) (PF.ofQ 0)
  · simp [hc, PF.blt_nan_left]
  · simp [hc]

/-- The second comparison fires exactly under the infeasibility
condition of the claim. -/
theorem infDetect_iff (ex : Externs) (d : Data) (w : Work) :
    PF.blt (ecResDualV ex d w) (PF.ofQ d.EPS) = true ↔ infDetect ex d w := by
  unfold ecResDualV infDetect
  cases hc : PF.blt (ecBTy d w) (PF.ofQ 0)
  · simp [hc, PF.blt_nan_left]
  · simp [hc]

/-- The solved test fires exactly under the optimality condition of the
claim, whose divisions are written with the product denominator. -/
theorem optDetect_iff (ex : Externs) (d : Data) (w : Work) :
    (PF.blt (ecKap d w) (ecTau w) &&
      PF.blt (PF.maxC (PF.maxC (ecRpri ex d w) (ecRdua ex d w)) (ecGap d w))
        (PF.ofQ d.EPS)) = true ↔ optDetect ex d w := by
  unfold optDetect ecRpri ecRdua
  rw [Bool.and_eq_true, PF.divDiv, PF.divDiv]

/-- Claim C1: run when iter is a multiple of 20, the convergence test
classifies by first match in the fixed order: UNBOUNDED (-1) iff
cTx < 0 and nm_c * nm_Axs / (-cTx) < EPS; otherwise INFEASIBLE (-2) iff
bTy < 0 and nm_b * nm_ATy / (-bTy) < EPS; otherwise SOLVED (+1) iff
tau > kap and the max of nmpr/((1+nm_b)*tau), nmdr/((1+nm_c)*tau) and
the relative gap is below EPS; otherwise 0, and on the remaining
iterations the check returns 0 so the loop continues. -/
theorem claim1_convergence_classification (ex : Externs) (d : Data) (w : Work)
    (r : Residuals) (i : Nat) :
    (i % 20 = 0 →
      (((converged ex d w r i).1 = -1 ↔ unbDetect ex d w) ∧
       ((converged ex d w r i).1 = -2 ↔ ¬unbDetect ex d w ∧ infDetect ex d w) ∧
       ((converged ex d w r i).1 = 1 ↔
          ¬unbDetect ex d w ∧ ¬infDetect ex d w ∧ optDetect ex d w) ∧
       ((converged ex d w r i).1 = 0 ↔
          ¬unbDetect ex d w ∧ ¬infDetect ex d w ∧ ¬optDetect ex d w))) ∧
    (¬(i % 20 = 0) → (converged ex d w r i).1 = 0) := by
  constructor
  · intro h20
    have hc : (converged ex d w r i).1 = (exactConverged ex d w r).1 := by
      simp [converged, h20]
    rw [hc, exactConverged_fst]
    rw [← unbDetect_iff, ← infDetect_iff, ← optDetect_iff]
    cases h1 : PF.blt (ecResPriV ex d w) (PF.ofQ d.EPS) <;>
    cases h2 : PF.blt (ecResDualV ex d w) (PF.ofQ d.EPS) <;>
    cases h3 : (PF.blt (ecKap d w) (ecTau w) &&
        PF.blt (PF.maxC (PF.maxC (ecRpri ex d w) (ecRdua ex d w)) (ecGap d w))
          (PF.ofQ d.EPS)) <;>
      simp [h1, h2, h3]
  · intro h20
    simp [converged, h20]

/-- Witness for C1: at the zero state on iteration 0 none of the three
conditions holds and the check returns 0. -/
theorem claim1_witness : (converged exZ dZ wZ rInit 0).1 = 0 :=
  (((claim1_convergence_classification exZ dZ wZ rInit 0).1 (by decide)).2.2.2).mpr
    (by
      refine ⟨?_, ?_, ?_⟩ <;>
        norm_num [unbDetect, infDetect, optDetect, ecCTx, ecBTy, ecKap, ecKapRaw, ecTau,
          normDiv, innerProd, List.range_succ, List.range_zero, dZ, wZ, exZ, vZero, shift,
          PF.blt, PF.ofQ, PF.add, PF.mul, PF.abs, PF.nan, decide_eq_true_eq])

/-- Claim C6, amended: a NaN quantity makes the comparison it enters
unsatisfied, so the corresponding terminal status cannot be produced by
that comparison; when the unboundedness ratio, the infeasibility ratio
and the relative gap are all NaN the check returns 0 and the loop
continues.  A NaN in one quantity does not block a different test. -/
theorem claim6_nan_comparisons (ex : Externs) (d : Data) (w : Work) (r : Residuals) :
    (ecResPriV ex d w = PF.nan → (exactConverged ex d w r).1 ≠ -1) ∧
    (ecResDualV ex d w = PF.nan → (exactConverged ex d w r).1 ≠ -2) ∧
    (ecGap d w = PF.nan → (exactConverged ex d w r).1 ≠ 1) ∧
    (ecResPriV ex d w = PF.nan ∧ ecResDualV ex d w = PF.nan ∧ ecGap d w = PF.nan →
       (exactConverged ex d w r).1 = 0) := by
  rw [exactConverged_fst]
  refine ⟨?_, ?_, ?_, ?_⟩
  · intro hnan
    rw [hnan]
    simp only [PF.blt_nan_left]
    split_ifs <;> simp_all
  · intro hnan
    rw [hnan]
    simp only [PF.blt_nan_left]
    split_ifs <;> simp_all
  · intro hnan
    rw [hnan, PF.maxC_nan_right]
    simp only [PF.blt_nan_left, Bool.and_false]
    split_ifs <;> simp_all
  · rintro ⟨ha, hb, hc⟩
    rw [ha, hb, hc, PF.maxC_nan_right]
    simp [PF.blt_nan_left]

/-- Counterexample to C6 as stated: at this state the unboundedness
ratio entering the test is NaN, yet the check returns the terminal
INFEASIBLE status -2 rather than 0. -/
theorem claim6_counterexample :
    ecResPriV exZ dC6 wC6 = PF.nan ∧
    (exactConverged exZ dC6 wC6 rInit).1 = -2 := by
  have h1 : ecResPriV exZ dC6 wC6 = PF.nan := by
    norm_num [ecResPriV, ecCTx, normDiv, innerProd, List.range_succ, List.range_zero,
      dC6, dZ, wC6, wZ, vZero, exZ, PF.blt, PF.ofQ, PF.add, PF.mul, PF.nan,
      decide_eq_true_eq]
  refine ⟨h1, ?_⟩
  rw [exactConverged_fst, h1]
  have h2 : PF.blt (ecResDualV exZ dC6 wC6) (PF.ofQ dC6.EPS) = true := by
    norm_num [ecResDualV, ecBTy, ecTau, ecNmATy, calcDualResid, accumByAtrans, normDiv,
      innerProd, List.range_succ, List.range_zero, dC6, dZ, wC6, wZ, vZero, exZ, shift,
      PF.blt, PF.ofQ, PF.add, PF.mul, PF.abs, PF.div, PF.neg, PF.sqrtE, PF.nan,
      decide_eq_true_eq]
  rw [h2]
  simp [PF.blt_nan_left]

/-- Witness for the amended C6: at the zero state all three quantities
are NaN and the check returns 0. -/
theorem claim6_witness :
    (ecResPriV exZ dZ wZ = PF.nan ∧ ecResDualV exZ dZ wZ = PF.nan ∧
      ecGap dZ wZ = PF.nan) ∧
    (exactConverged exZ dZ wZ rInit).1 = 0 := by
  have h : ecResPriV exZ dZ wZ = PF.nan ∧ ecResDualV exZ dZ wZ = PF.nan ∧
      ecGap dZ wZ = PF.nan := by
    refine ⟨?_, ?_, ?_⟩ <;>
      norm_num [ecResPriV, ecResDualV, ecGap, ecCTx, ecBTy, ecKap, ecKapRaw, ecTau,
        normDiv, innerProd, List.range_succ, List.range_zero, dZ, wZ, vZero, exZ, shift,
        PF.blt, PF.ofQ, PF.add, PF.mul, PF.abs, PF.div, PF.nan, decide_eq_true_eq]
  exact ⟨h, (claim6_nan_comparisons exZ dZ wZ rInit).2.2.2 h⟩

/-- Pointwise description of the offset scaling loop. -/
theorem scaleArraySeg_apply (a : Vec) (sc : PF) (start len : Nat) (i : Nat) :
    scaleArraySeg a sc start len i =
      if start ≤ i ∧ i < start + len then PF.mul (a i) sc else a i := by
  rw [scaleArraySeg, mapIdxRange_apply]

/-- The pairing of b with the copied y block equals the pairing with
the y block of the workspace. -/
theorem setSol_bTy (d : Data) (w : Work) (sol : Sol) :
    innerProd d.b (sets d w (sety d w (setx d w sol))).y d.m.toNat =
      innerProd d.b (shift w.u d.n.toNat) d.m.toNat := by
  refine innerProd_congr _ _ _ _ _ (fun i _ => rfl) (fun i hi => ?_)
  simp [sets, sety, setx, writeSeg, hi]

/-- The pairing of c with the copied x block equals the pairing with
the x block of the workspace. -/
theorem setSol_cTx (d : Data) (w : Work) (sol : Sol) :
    innerProd d.c (sets d w (sety d w (setx d w sol))).x d.n.toNat =
      innerProd d.c w.u d.n.toNat := by
  refine innerProd_congr _ _ _ _ _ (fun i _ => rfl) (fun i hi => ?_)
  simp [sets, sety, setx, writeSeg, hi]

/-- Claim C2: after loop exit with statusVal 0 or SOLVED, the extractor
with tau = u[l-1] unsigned and kap = the absolute value of v[l-1]
assigns exactly SOLVED with x, y, s divided by tau when tau exceeds
UNDET_TOL and kap; else INDETERMINATE with NaN vectors when the norm of
u is below UNDET_TOL times the square root of l; else INFEASIBLE when
the pairing of b with y is below the pairing of c with x, and UNBOUNDED
otherwise. -/
theorem claim2_extractor (ex : Externs) (d : Data) (w : Work) (sol : Sol) (info : Info)
    (h0 : info.statusVal = 0 ∨ info.statusVal = 1) :
    (((setSolution ex d w sol info).2.statusVal = 1 ↔ ssSolvedCond d w) ∧
     ((setSolution ex d w sol info).2.statusVal = -3 ↔
        ¬ssSolvedCond d w ∧ ssIndetCond ex d w) ∧
     ((setSolution ex d w sol info).2.statusVal = -2 ↔
        ¬ssSolvedCond d w ∧ ¬ssIndetCond ex d w ∧ ssInfCond d w) ∧
     ((setSolution ex d w sol info).2.statusVal = -1 ↔
        ¬ssSolvedCond d w ∧ ¬ssIndetCond ex d w ∧ ¬ssInfCond d w)) ∧
    (ssSolvedCond d w →
       (setSolution ex d w sol info).2.status = "Solved" ∧
       (∀ i, i < d.n.toNat →
         (setSolution ex d w sol info).1.x i = PF.div (w.u i) (w.u (w.l - 1))) ∧
       (∀ i, i < d.m.toNat →
         (setSolution ex d w sol info).1.y i =
           PF.div (w.u (d.n.toNat + i)) (w.u (w.l - 1))) ∧
       (∀ i, i < d.m.toNat →
         (setSolution ex d w sol info).1.s i =
           PF.div (w.v (d.n.toNat + i)) (w.u (w.l - 1)))) ∧
    (¬ssSolvedCond d w → ssIndetCond ex d w →
       (setSolution ex d w sol info).2.status = "Indeterminate" ∧
       (∀ i, i < d.n.toNat → (setSolution ex d w sol info).1.x i = PF.nan) ∧
       (∀ i, i < d.m.toNat → (setSolution ex d w sol info).1.y i = PF.nan) ∧
       (∀ i, i < d.m.toNat → (setSolution ex d w sol info).1.s i = PF.nan)) ∧
    (¬ssSolvedCond d w → ¬ssIndetCond ex d w → ssInfCond d w →
       (setSolution ex d w sol info).2.status = "Infeasible") ∧
    (¬ssSolvedCond d w → ¬ssIndetCond ex d w → ¬ssInfCond d w →
       (setSolution ex d w sol info).2.status = "Unbounded") := by
  cases hb1 : (PF.blt (PF.ofQ d.UNDET_TOL) (w.u (w.l - 1)) &&
      PF.blt (PF.abs (w.v (w.l - 1))) (w.u (w.l - 1))) with
  | true =>
    have H1 : ssSolvedCond d w := by
      unfold ssSolvedCond
      exact Bool.and_eq_true _ _ |>.mp hb1
    have hset : setSolution ex d w sol info =
        solvedCase d (sets d w (sety d w (setx d w sol))) info (w.u (w.l - 1)) := by
      simp [setSolution, h0, hb1]
    rw [hset]
    refine ⟨⟨?_, ?_, ?_, ?_⟩, ?_, ?_, ?_, ?_⟩
    · simp [solvedCase, H1]
    · simp [solvedCase, H1]
    · simp [solvedCase, H1]
    · simp [solvedCase, H1]
    · intro _
      refine ⟨rfl, ?_, ?_, ?_⟩
      · intro i hi
        simp [solvedCase, sets, sety, setx, scaleArraySeg_apply, writeSeg, hi,
          PF.mulOneDiv]
      · intro i hi
        simp [solvedCase, sets, sety, setx, scaleArraySeg_apply, writeSeg, shift, hi,
          PF.mulOneDiv]
      · intro i hi
        simp [solvedCase, sets, sety, setx, scaleArraySeg_apply, writeSeg, shift, hi,
          PF.mulOneDiv]
    · intro hns
      exact absurd H1 hns
    · intro hns
      exact absurd H1 hns
    · intro hns
      exact absurd H1 hns
  | false =>
    have H1 : ¬ssSolvedCond d w := by
      unfold ssSolvedCond
      rw [← Bool.and_eq_true, hb1]
      simp
    cases hb2 : PF.blt (calcNorm ex.sq w.u w.l)
        (PF.mul (PF.ofQ d.UNDET_TOL) (PF.sqrtE ex.sq (PF.ofQ (w.l : ℚ)))) with
    | true =>
      have H2 : ssIndetCond ex d w := hb2
      have hset : setSolution ex d w sol info =
          indeterminateCase d (sets d w (sety d w (setx d w sol))) info := by
        simp [setSolution, h0, hb1, hb2]
      rw [hset]
      refine ⟨⟨?_, ?_, ?_, ?_⟩, ?_, ?_, ?_, ?_⟩
      · simp [indeterminateCase, H1]
      · simp [indeterminateCase, H1, H2]
      · simp [indeterminateCase, H1, H2]
      · simp [indeterminateCase, H1, H2]
      · intro hs
        exact absurd hs H1
      · intro _ _
        refine ⟨rfl, ?_, ?_, ?_⟩ <;>
        · intro i hi
          simp [indeterminateCase, sets, sety, setx, scaleArraySeg_apply, writeSeg, hi,
            PF.mul_nan]
      · intro _ hni _
        exact absurd H2 hni
      · intro _ hni _
        exact absurd H2 hni
    | false =>
      have H2 : ¬ssIndetCond ex d w := by
        unfold ssIndetCond
        rw [hb2]
        simp
      cases hb3 : PF.blt (innerProd d.b (shift w.u d.n.toNat) d.m.toNat)
          (innerProd d.c w.u d.n.toNat) with
      | true =>
        have H3 : ssInfCond d w := hb3
        have hset : setSolution ex d w sol info =
            infeasibleCase d (sets d w (sety d w (setx d w sol))) info := by
          simp [setSolution, h0, hb1, hb2, setSol_bTy, setSol_cTx, hb3]
        rw [hset]
        refine ⟨⟨?_, ?_, ?_, ?_⟩, ?_, ?_, ?_, ?_⟩
        · simp [infeasibleCase, H1]
        · simp [infeasibleCase, H1, H2]
        · simp [infeasibleCase, H1, H2, H3]
        · simp [infeasibleCase, H1, H2, H3]
        · intro hs
          exact absurd hs H1
        · intro _ hind
          exact absurd hind H2
        · intro _ _ _
          rfl
        · intro _ _ hni
          exact absurd H3 hni
      | false =>
        have H3 : ¬ssInfCond d w := by
          unfold ssInfCond
          rw [hb3]
          simp
        have hset : setSolution ex d w sol info =
            unboundedCase d (sets d w (sety d w (setx d w sol))) info := by
          simp [setSolution, h0, hb1, hb2, setSol_bTy, setSol_cTx, hb3]
        rw [hset]
        refine ⟨⟨?_, ?_, ?_, ?_⟩, ?_, ?_, ?_, ?_⟩
        · simp [unboundedCase, H1]
        · simp [unboundedCase, H1, H2]
        · simp [unboundedCase, H1, H2, H3]
        · simp [unboundedCase, H1, H2, H3]
        · intro hs
          exact absurd hs H1
        · intro _ hind
          exact absurd hind H2
        · intro _ _ hinf
          exact absurd hinf H3
        · intro _ _ _
          rfl

/-- Witness for C2: at the zero state none of the three conditions
holds and the extractor assigns UNBOUNDED. -/
theorem claim2_witness :
    (setSolution exZ dZ wZ solZ infoZ).2.statusVal = -1 :=
  ((claim2_extractor exZ dZ wZ solZ infoZ (Or.inl rfl)).1.2.2.2).mpr
    (by
      refine ⟨?_, ?_, ?_⟩ <;>
        norm_num [ssSolvedCond, ssIndetCond, ssInfCond, calcNorm, innerProd,
          List.range_succ, List.range_zero, dZ, wZ, exZ, vZero, shift,
          PF.blt, PF.ofQ, PF.add, PF.mul, PF.abs, PF.sqrtE, decide_eq_true_eq])

/-- Greater-than characterization of the running maximum loop of
validate. -/
theorem foldMax_gt (f : Nat → Nat) (len : Nat) (k : Int) :
    ((((List.range len).foldl (fun r i => max r (f i)) 0 : Nat)) : Int) > k ↔
      ((0 : Int) > k ∨ ∃ p, p < len ∧ ((f p : Int) > k)) := by
  induction len with
  | zero => simp
  | succ q ih =>
    rw [List.range_succ, List.foldl_append, List.foldl_cons, List.foldl_nil]
    push_cast [Nat.cast_max]
    rw [gt_iff_lt, lt_max_iff]
    constructor
    · rintro (h | h)
      · rcases ih.mp h with h0 | ⟨p, hp, hfp⟩
        · exact Or.inl h0
        · exact Or.inr ⟨p, by omega, hfp⟩
      · exact Or.inr ⟨q, by omega, h⟩
    · rintro (h0 | ⟨p, hp, hfp⟩)
      · exact Or.inl (ih.mpr (Or.inl h0))
      · by_cases hpq : p = q
        · subst hpq
          exact Or.inr hfp
        · exact Or.inl (ih.mpr (Or.inr ⟨p, by omega, hfp⟩))

/-- Rejection forces the failure path of scs_init: no workspace, the
FAILURE status with its string, NaN info fields and NaN-filled
solution vectors. -/
theorem scs_init_failure (ex : Externs) (d : Data) (sol : Sol) (info : Info)
    (h : (validateR ex d).isSome) :
    (scs_init ex d sol info).1 = none ∧
    (scs_init ex d sol info).2.2.statusVal = -4 ∧
    (scs_init ex d sol info).2.2.status = "Failure" ∧
    (scs_init ex d sol info).2.2.pobj = PF.nan ∧
    (scs_init ex d sol info).2.2.dobj = PF.nan ∧
    (scs_init ex d sol info).2.2.relGap = PF.nan ∧
    (scs_init ex d sol info).2.2.resPri = PF.nan ∧
    (scs_init ex d sol info).2.2.resDual = PF.nan ∧
    (∀ i, i < d.n.toNat → (scs_init ex d sol info).2.1.x i = PF.nan) ∧
    (∀ i, i < d.m.toNat → (scs_init ex d sol info).2.1.y i = PF.nan) ∧
    (∀ i, i < d.m.toNat → (scs_init ex d sol info).2.1.s i = PF.nan) := by
  have hv : validate ex d < 0 := by
    cases hvr : validateR ex d with
    | none => rw [hvr] at h; simp at h
    | some r => simp [validate, hvr]
  unfold scs_init
  rw [if_pos hv]
  unfold failureDefaultReturn
  refine ⟨rfl, rfl, rfl, rfl, rfl, rfl, rfl, rfl, ?_, ?_, ?_⟩ <;>
  · intro i hi
    simp [scaleArraySeg_apply, hi, PF.mul_nan]

/-- Missing-pointer condition spelled with false flags. -/
theorem flags_bridge (d : Data) :
    ¬(d.hasAx = true ∧ d.hasAi = true ∧ d.hasAp = true ∧ d.hasB = true ∧ d.hasC = true) ↔
      (d.hasAx = false ∨ d.hasAi = false ∨ d.hasAp = false ∨
        d.hasB = false ∨ d.hasC = false) := by
  cases d.hasAx <;> cases d.hasAi <;> cases d.hasAp <;> cases d.hasB <;>
    cases d.hasC <;> simp

/-- Monotonicity check of the column pointers as an existential. -/
theorem any_bridge (d : Data) :
    (List.range d.n.toNat).any (fun i => d.Ap (i + 1) ≤ d.Ap i) = true ↔
      ∃ i, i < d.n.toNat ∧ d.Ap (i + 1) ≤ d.Ap i := by
  simp [List.any_eq_true, List.mem_range, decide_eq_true_eq]

/-- Row-bound check as an existential once the row count is positive. -/
theorem rows_bridge (d : Data) (hm : ¬(d.m ≤ 0 ∨ d.n ≤ 0)) :
    ((((List.range (d.Ap d.n.toNat).toNat).foldl (fun r i => max r (d.Ai i)) 0 : Nat)) : Int) >
        d.m - 1 ↔
      ∃ p, p < (d.Ap d.n.toNat).toNat ∧ ((d.Ai p : Int) > d.m - 1) := by
  rw [foldMax_gt]
  constructor
  · rintro (h0 | h)
    · exact absurd h0 (by omega)
    · exact h
  · intro h
    exact Or.inr h

/-- Full dispatch of validateR: exactly one of the thirteen outcomes
occurs, with the first-match context recorded. -/
theorem validateR_cases (ex : Externs) (d : Data) :
    (validateR ex d = some VReason.dataIncomplete ∧
       ¬(d.hasAx = true ∧ d.hasAi = true ∧ d.hasAp = true ∧ d.hasB = true ∧ d.hasC = true)) ∨
    (validateR ex d = some VReason.dimNonPositive ∧ (d.m ≤ 0 ∨ d.n ≤ 0)) ∨
    (validateR ex d = some VReason.mLessThanN ∧ d.m < d.n) ∨
    (validateR ex d = some VReason.apNotIncreasing ∧
       (List.range d.n.toNat).any (fun i => d.Ap (i + 1) ≤ d.Ap i) = true) ∨
    (validateR ex d = some VReason.anzRange ∧
       (((d.Ap d.n.toNat : ℚ) / (d.m : ℚ) > (d.n : ℚ)) ∨ d.Ap d.n.toNat ≤ 0)) ∨
    (validateR ex d = some VReason.rowsInconsistent ∧ ¬(d.m ≤ 0 ∨ d.n ≤ 0) ∧
       ((((List.range (d.Ap d.n.toNat).toNat).foldl (fun r i => max r (d.Ai i)) 0 : Nat)) : Int) >
         d.m - 1) ∨
    (validateR ex d = some VReason.invalidCones ∧ ex.validateCones < 0) ∨
    (validateR ex d = some VReason.coneDimMismatch ∧ ex.getFullConeDims ≠ d.m) ∨
    (validateR ex d = some VReason.maxItersNeg ∧ d.MAX_ITERS < 0) ∨
    (validateR ex d = some VReason.epsNeg ∧ d.EPS < 0) ∨
    (validateR ex d = some VReason.alphaRange ∧ (d.ALPHA ≤ 0 ∨ d.ALPHA ≥ 2)) ∨
    (validateR ex d = some VReason.rhoNeg ∧ d.RHO_X < 0) ∨
    (validateR ex d = none ∧
       (d.hasAx = true ∧ d.hasAi = true ∧ d.hasAp = true ∧ d.hasB = true ∧ d.hasC = true) ∧
       ¬(d.m ≤ 0 ∨ d.n ≤ 0) ∧ ¬(d.m < d.n) ∧
       ¬((List.range d.n.toNat).any (fun i => d.Ap (i + 1) ≤ d.Ap i) = true) ∧
       ¬(((d.Ap d.n.toNat : ℚ) / (d.m : ℚ) > (d.n : ℚ)) ∨ d.Ap d.n.toNat ≤ 0) ∧
       ¬(((((List.range (d.Ap d.n.toNat).toNat).foldl (fun r i => max r (d.Ai i)) 0 : Nat)) : Int) >
           d.m - 1) ∧
       ¬(ex.validateCones < 0) ∧ ¬(ex.getFullConeDims ≠ d.m) ∧
       ¬(d.MAX_ITERS < 0) ∧ ¬(d.EPS < 0) ∧
       ¬(d.ALPHA ≤ 0 ∨ d.ALPHA ≥ 2) ∧ ¬(d.RHO_X < 0)) := by
  by_cases h1 : ¬(d.hasAx = true ∧ d.hasAi = true ∧ d.hasAp = true ∧ d.hasB = true ∧
      d.hasC = true)
  · refine Or.inl ⟨?_, h1⟩
    unfold validateR
    rw [if_pos h1]
  · by_cases h2 : d.m ≤ 0 ∨ d.n ≤ 0
    · refine Or.inr (Or.inl ⟨?_, h2⟩)
      unfold validateR
      rw [if_neg h1, if_pos h2]
    · by_cases h3 : d.m < d.n
      · refine Or.inr (Or.inr (Or.inl ⟨?_, h3⟩))
        unfold validateR
        rw [if_neg h1, if_neg h2, if_pos h3]
      · by_cases h4 : (List.range d.n.toNat).any (fun i => d.Ap (i + 1) ≤ d.Ap i) = true
        · refine Or.inr (Or.inr (Or.inr (Or.inl ⟨?_, h4⟩)))
          unfold validateR
          rw [if_neg h1, if_neg h2, if_neg h3, if_pos h4]
        · by_cases h5 : ((d.Ap d.n.toNat : ℚ) / (d.m : ℚ) > (d.n : ℚ)) ∨ d.Ap d.n.toNat ≤ 0
          · refine Or.inr (Or.inr (Or.inr (Or.inr (Or.inl ⟨?_, h5⟩))))
            unfold validateR
            rw [if_neg h1, if_neg h2, if_neg h3, if_neg h4, if_pos h5]
          · by_cases h6 :
                ((((List.range (d.Ap d.n.toNat).toNat).foldl (fun r i => max r (d.Ai i)) 0 :
                    Nat)) : Int) > d.m - 1
            · refine Or.inr (Or.inr (Or.inr (Or.inr (Or.inr (Or.inl ⟨?_, h2, h6⟩)))))
              unfold validateR
              rw [if_neg h1, if_neg h2, if_neg h3, if_neg h4, if_neg h5, if_pos h6]
            · by_cases h7 : ex.validateCones < 0
              · refine Or.inr (Or.inr (Or.inr (Or.inr (Or.inr (Or.inr (Or.inl ⟨?_, h7⟩))))))
                unfold validateR
                rw [if_neg h1, if_neg h2, if_neg h3, if_neg h4, if_neg h5, if_neg h6,
                  if_pos h7]
              · by_cases h8 : ex.getFullConeDims ≠ d.m
                · refine Or.inr (Or.inr (Or.inr (Or.inr (Or.inr (Or.inr (Or.inr
                    (Or.inl ⟨?_, h8⟩)))))))
                  unfold validateR
                  rw [if_neg h1, if_neg h2, if_neg h3, if_neg h4, if_neg h5, if_neg h6,
                    if_neg h7, if_pos h8]
                · by_cases h9 : d.MAX_ITERS < 0
                  · refine Or.inr (Or.inr (Or.inr (Or.inr (Or.inr (Or.inr (Or.inr (Or.inr
                      (Or.inl ⟨?_, h9⟩))))))))
                    unfold validateR
                    rw [if_neg h1, if_neg h2, if_neg h3, if_neg h4, if_neg h5, if_neg h6,
                      if_neg h7, if_neg h8, if_pos h9]
                  · by_cases h10 : d.EPS < 0
                    · refine Or.inr (Or.inr (Or.inr (Or.inr (Or.inr (Or.inr (Or.inr (Or.inr
                        (Or.inr (Or.inl ⟨?_, h10⟩)))))))))
                      unfold validateR
                      rw [if_neg h1, if_neg h2, if_neg h3, if_neg h4, if_neg h5, if_neg h6,
                        if_neg h7, if_neg h8, if_neg h9, if_pos h10]
                    · by_cases h11 : d.ALPHA ≤ 0 ∨ d.ALPHA ≥ 2
                      · refine Or.inr (Or.inr (Or.inr (Or.inr (Or.inr (Or.inr (Or.inr
                          (Or.inr (Or.inr (Or.inr (Or.inl ⟨?_, h11⟩))))))))))
                        unfold validateR
                        rw [if_neg h1, if_neg h2, if_neg h3, if_neg h4, if_neg h5,
                          if_neg h6, if_neg h7, if_neg h8, if_neg h9, if_neg h10,
                          if_pos h11]
                      · by_cases h12 : d.RHO_X < 0
                        · refine Or.inr (Or.inr (Or.inr (Or.inr (Or.inr (Or.inr (Or.inr
                            (Or.inr (Or.inr (Or.inr (Or.inr (Or.inl ⟨?_, h12⟩)))))))))))
                          unfold validateR
                          rw [if_neg h1, if_neg h2, if_neg h3, if_neg h4, if_neg h5,
                            if_neg h6, if_neg h7, if_neg h8, if_neg h9, if_neg h10,
                            if_neg h11, if_pos h12]
                        · refine Or.inr (Or.inr (Or.inr (Or.inr (Or.inr (Or.inr (Or.inr
                            (Or.inr (Or.inr (Or.inr (Or.inr (Or.inr
                              ⟨?_, not_not.mp h1, h2, h3, h4, h5, h6, h7, h8, h9, h10,
                                h11, h12⟩)))))))))))
                          unfold validateR
                          rw [if_neg h1, if_neg h2, if_neg h3, if_neg h4, if_neg h5,
                            if_neg h6, if_neg h7, if_neg h8, if_neg h9, if_neg h10,
                            if_neg h11, if_neg h12]

/-- Every reason returned by validateR names a check that holds. -/
theorem validateR_reason (ex : Externs) (d : Data) (r : VReason)
    (hr : validateR ex d = some r) :
    (r = VReason.dataIncomplete →
       (d.hasAx = false ∨ d.hasAi = false ∨ d.hasAp = false ∨
         d.hasB = false ∨ d.hasC = false)) ∧
    (r = VReason.dimNonPositive → d.m ≤ 0 ∨ d.n ≤ 0) ∧
    (r = VReason.mLessThanN → d.m < d.n) ∧
    (r = VReason.apNotIncreasing → ∃ i, i < d.n.toNat ∧ d.Ap (i + 1) ≤ d.Ap i) ∧
    (r = VReason.anzRange →
       d.Ap d.n.toNat ≤ 0 ∨ (d.Ap d.n.toNat : ℚ) / (d.m : ℚ) > (d.n : ℚ)) ∧
    (r = VReason.rowsInconsistent →
       ∃ p, p < (d.Ap d.n.toNat).toNat ∧ ((d.Ai p : Int) > d.m - 1)) ∧
    (r = VReason.invalidCones → ex.validateCones < 0) ∧
    (r = VReason.coneDimMismatch → ex.getFullConeDims ≠ d.m) ∧
    (r = VReason.maxItersNeg → d.MAX_ITERS < 0) ∧
    (r = VReason.epsNeg → d.EPS < 0) ∧
    (r = VReason.alphaRange → d.ALPHA ≤ 0 ∨ d.ALPHA ≥ 2) ∧
    (r = VReason.rhoNeg → d.RHO_X < 0) := by
  rcases validateR_cases ex d with
    ⟨he, hc⟩ | ⟨he, hc⟩ | ⟨he, hc⟩ | ⟨he, hc⟩ | ⟨he, hc⟩ | ⟨he, hc2, hc⟩ | ⟨he, hc⟩ |
    ⟨he, hc⟩ | ⟨he, hc⟩ | ⟨he, hc⟩ | ⟨he, hc⟩ | ⟨he, hc⟩ | ⟨he, hc⟩ <;>
    rw [he] at hr
  all_goals first
    | exact Option.noConfusion hr
    | (injection hr with hr2
       subst hr2
       refine ⟨?_, ?_, ?_, ?_, ?_, ?_, ?_, ?_, ?_, ?_, ?_, ?_⟩ <;> intro heq <;>
         first
          | exact absurd heq (by decide)
          | exact hc
          | exact (flags_bridge d).mp hc
          | exact (any_bridge d).mp hc
          | (rcases hc with h | h
             · exact Or.inr h
             · exact Or.inl h)
          | exact (rows_bridge d hc2).mp hc)

/-- Rejection happens exactly under the disjunction of the twelve
conditions. -/
theorem validateR_isSome_iff (ex : Externs) (d : Data) :
    (validateR ex d).isSome ↔ rejectCond ex d := by
  rcases validateR_cases ex d with
    ⟨he, hc⟩ | ⟨he, hc⟩ | ⟨he, hc⟩ | ⟨he, hc⟩ | ⟨he, hc⟩ | ⟨he, hc2, hc⟩ | ⟨he, hc⟩ |
    ⟨he, hc⟩ | ⟨he, hc⟩ | ⟨he, hc⟩ | ⟨he, hc⟩ | ⟨he, hc⟩ |
    ⟨he, hf, h2, h3, h4, h5, h6, h7, h8, h9, h10, h11, h12⟩ <;>
    rw [he] <;> unfold rejectCond
  · exact ⟨fun _ => Or.inl ((flags_bridge d).mp hc), fun _ => rfl⟩
  · exact ⟨fun _ => Or.inr (Or.inl hc), fun _ => rfl⟩
  · exact ⟨fun _ => Or.inr (Or.inr (Or.inl hc)), fun _ => rfl⟩
  · exact ⟨fun _ => Or.inr (Or.inr (Or.inr (Or.inl ((any_bridge d).mp hc)))),
      fun _ => rfl⟩
  · refine ⟨fun _ => Or.inr (Or.inr (Or.inr (Or.inr (Or.inl ?_)))), fun _ => rfl⟩
    rcases hc with h | h
    · exact Or.inr h
    · exact Or.inl h
  · exact ⟨fun _ => Or.inr (Or.inr (Or.inr (Or.inr (Or.inr
      (Or.inl ((rows_bridge d hc2).mp hc)))))), fun _ => rfl⟩
  · exact ⟨fun _ => Or.inr (Or.inr (Or.inr (Or.inr (Or.inr (Or.inr (Or.inl hc)))))),
      fun _ => rfl⟩
  · exact ⟨fun _ => Or.inr (Or.inr (Or.inr (Or.inr (Or.inr (Or.inr (Or.inr
      (Or.inl hc))))))), fun _ => rfl⟩
  · exact ⟨fun _ => Or.inr (Or.inr (Or.inr (Or.inr (Or.inr (Or.inr (Or.inr (Or.inr
      (Or.inl hc)))))))), fun _ => rfl⟩
  · exact ⟨fun _ => Or.inr (Or.inr (Or.inr (Or.inr (Or.inr (Or.inr (Or.inr (Or.inr
      (Or.inr (Or.inl hc))))))))), fun _ => rfl⟩
  · exact ⟨fun _ => Or.inr (Or.inr (Or.inr (Or.inr (Or.inr (Or.inr (Or.inr (Or.inr
      (Or.inr (Or.inr (Or.inl hc)))))))))), fun _ => rfl⟩
  · exact ⟨fun _ => Or.inr (Or.inr (Or.inr (Or.inr (Or.inr (Or.inr (Or.inr (Or.inr
      (Or.inr (Or.inr (Or.inr hc)))))))))), fun _ => rfl⟩
  · constructor
    · intro hfalse
      simp at hfalse
    · intro hrej
      exfalso
      rcases hrej with hcc | hcc | hcc | hcc | hcc | hcc | hcc | hcc | hcc | hcc |
        hcc | hcc
      · exact ((flags_bridge d).mpr hcc) hf
      · exact h2 hcc
      · exact h3 hcc
      · exact h4 ((any_bridge d).mpr hcc)
      · apply h5
        rcases hcc with h | h
        · exact Or.inr h
        · exact Or.inl h
      · exact h6 ((rows_bridge d h2).mpr hcc)
      · exact h7 hcc
      · exact h8 hcc
      · exact h9 hcc
      · exact h10 hcc
      · exact h11 hcc
      · exact h12 hcc

/-- Claim C5: validation rejects exactly when one of the twelve listed
conditions holds, each rejection reports the reason of the check that
fired, and on rejection the entry point produces the NaN-filled failure
solution and info with statusVal FAILURE and status string Failure. -/
theorem claim5_validation (ex : Externs) (d : Data) (sol : Sol) (info : Info) :
    ((validateR ex d).isSome ↔ rejectCond ex d) ∧
    ((validateR ex d = some VReason.dataIncomplete →
        (d.hasAx = false ∨ d.hasAi = false ∨ d.hasAp = false ∨
          d.hasB = false ∨ d.hasC = false)) ∧
     (validateR ex d = some VReason.dimNonPositive → d.m ≤ 0 ∨ d.n ≤ 0) ∧
     (validateR ex d = some VReason.mLessThanN → d.m < d.n) ∧
     (validateR ex d = some VReason.apNotIncreasing →
        ∃ i, i < d.n.toNat ∧ d.Ap (i + 1) ≤ d.Ap i) ∧
     (validateR ex d = some VReason.anzRange →
        d.Ap d.n.toNat ≤ 0 ∨ (d.Ap d.n.toNat : ℚ) / (d.m : ℚ) > (d.n : ℚ)) ∧
     (validateR ex d = some VReason.rowsInconsistent →
        ∃ p, p < (d.Ap d.n.toNat).toNat ∧ ((d.Ai p : Int) > d.m - 1)) ∧
     (validateR ex d = some VReason.invalidCones → ex.validateCones < 0) ∧
     (validateR ex d = some VReason.coneDimMismatch → ex.getFullConeDims ≠ d.m) ∧
     (validateR ex d = some VReason.maxItersNeg → d.MAX_ITERS < 0) ∧
     (validateR ex d = some VReason.epsNeg → d.EPS < 0) ∧
     (validateR ex d = some VReason.alphaRange → d.ALPHA ≤ 0 ∨ d.ALPHA ≥ 2) ∧
     (validateR ex d = some VReason.rhoNeg → d.RHO_X < 0)) ∧
    ((validateR ex d).isSome →
      (scs_init ex d sol info).1 = none ∧
      (scs_init ex d sol info).2.2.statusVal = -4 ∧
      (scs_init ex d sol info).2.2.status = "Failure" ∧
      (scs_init ex d sol info).2.2.pobj = PF.nan ∧
      (scs_init ex d sol info).2.2.dobj = PF.nan ∧
      (scs_init ex d sol info).2.2.relGap = PF.nan ∧
      (scs_init ex d sol info).2.2.resPri = PF.nan ∧
      (scs_init ex d sol info).2.2.resDual = PF.nan ∧
      (∀ i, i < d.n.toNat → (scs_init ex d sol info).2.1.x i = PF.nan) ∧
      (∀ i, i < d.m.toNat → (scs_init ex d sol info).2.1.y i = PF.nan) ∧
      (∀ i, i < d.m.toNat → (scs_init ex d sol info).2.1.s i = PF.nan)) := by
  refine ⟨validateR_isSome_iff ex d, ?_, scs_init_failure ex d sol info⟩
  refine ⟨?_, ?_, ?_, ?_, ?_, ?_, ?_, ?_, ?_, ?_, ?_, ?_⟩ <;>
  · intro hr
    first
      | exact (validateR_reason ex d _ hr).1 rfl
      | exact (validateR_reason ex d _ hr).2.1 rfl
      | exact (validateR_reason ex d _ hr).2.2.1 rfl
      | exact (validateR_reason ex d _ hr).2.2.2.1 rfl
      | exact (validateR_reason ex d _ hr).2.2.2.2.1 rfl
      | exact (validateR_reason ex d _ hr).2.2.2.2.2.1 rfl
      | exact (validateR_reason ex d _ hr).2.2.2.2.2.2.1 rfl
      | exact (validateR_reason ex d _ hr).2.2.2.2.2.2.2.1 rfl
      | exact (validateR_reason ex d _ hr).2.2.2.2.2.2.2.2.1 rfl
      | exact (validateR_reason ex d _ hr).2.2.2.2.2.2.2.2.2.1 rfl
      | exact (validateR_reason ex d _ hr).2.2.2.2.2.2.2.2.2.2.1 rfl
      | exact (validateR_reason ex d _ hr).2.2.2.2.2.2.2.2.2.2.2 rfl

/-- Witness for C5: the data with zero rows is rejected and the entry
point reports the failure status. -/
theorem claim5_witness :
    (validateR exZ dBad).isSome ∧
    (scs_init exZ dBad solZ infoZ).2.2.statusVal = -4 ∧
    (scs_init exZ dBad solZ infoZ).2.2.status = "Failure" := by
  have hs : (validateR exZ dBad).isSome := by
    norm_num [validateR, dBad, dZ]
  have hparts := (claim5_validation exZ dBad solZ infoZ).2.2 hs
  exact ⟨hs, hparts.2.1, hparts.2.2.1⟩

/-- The extractor always leaves one of the four terminal statuses. -/
theorem setSolution_statusVal_mem (ex : Externs) (d : Data) (w : Work) (sol : Sol)
    (info : Info) :
    (setSolution ex d w sol info).2.statusVal = 1 ∨
    (setSolution ex d w sol info).2.statusVal = -3 ∨
    (setSolution ex d w sol info).2.statusVal = -2 ∨
    (setSolution ex d w sol info).2.statusVal = -1 := by
  unfold setSolution
  simp only [Bool.and_eq_true]
  split_ifs <;>
    simp [solvedCase, indeterminateCase, infeasibleCase, unboundedCase]

/-- The extractor always writes one of the four terminal strings. -/
theorem setSolution_status_mem (ex : Externs) (d : Data) (w : Work) (sol : Sol)
    (info : Info) :
    (setSolution ex d w sol info).2.status = "Solved" ∨
    (setSolution ex d w sol info).2.status = "Indeterminate" ∨
    (setSolution ex d w sol info).2.status = "Infeasible" ∨
    (setSolution ex d w sol info).2.status = "Unbounded" := by
  unfold setSolution
  simp only [Bool.and_eq_true]
  split_ifs <;>
    simp [solvedCase, indeterminateCase, infeasibleCase, unboundedCase]

/-- getInfo never touches statusVal, status or iter. -/
theorem getInfo_keeps (ex : Externs) (d : Data) (w : Work) (sol : Sol) (info : Info) :
    (getInfo ex d w sol info).2.statusVal = info.statusVal ∧
    (getInfo ex d w sol info).2.status = info.status ∧
    (getInfo ex d w sol info).2.iter = info.iter := by
  unfold getInfo
  dsimp only
  split_ifs <;> exact ⟨rfl, rfl, rfl⟩

/-- scs_init leaves the info failure status exactly on its none path. -/
theorem scs_init_none_stat (ex : Externs) (d : Data) (sol : Sol) (info : Info)
    (h : (scs_init ex d sol info).1 = none) :
    (scs_init ex d sol info).2.2.statusVal = -4 := by
  unfold scs_init at h ⊢
  by_cases hv : validate ex d < 0
  · rw [if_pos hv]
    rfl
  · rw [if_neg hv] at h ⊢
    cases hiw : initWork ex d with
    | none => rfl
    | some dw =>
      rw [hiw] at h
      simp at h

/-- Claim C9: after the top-level solve the info statusVal is one of
FAILURE, INDETERMINATE, INFEASIBLE, UNBOUNDED or SOLVED; the internal
not-converged sentinel 0 never surfaces on any exit path. -/
theorem claim9_status_range (ex : Externs) (d : Data) (sol : Sol) (info : Info) :
    (scs ex d sol info).2.1.statusVal = -4 ∨
    (scs ex d sol info).2.1.statusVal = -3 ∨
    (scs ex d sol info).2.1.statusVal = -2 ∨
    (scs ex d sol info).2.1.statusVal = -1 ∨
    (scs ex d sol info).2.1.statusVal = 1 := by
  unfold scs
  rcases hinit : scs_init ex d sol info with ⟨ow, sol2, info2⟩
  cases ow with
  | none =>
    have h4 : info2.statusVal = -4 := by
      have hh := scs_init_none_stat ex d sol info (by rw [hinit])
      rw [hinit] at hh
      exact hh
    simp only []
    exact Or.inl h4
  | some dw =>
    simp only []
    have hsv : (scs_solve ex dw.1 dw.2 sol2 info2).2.2.2.statusVal = 1 ∨
        (scs_solve ex dw.1 dw.2 sol2 info2).2.2.2.statusVal = -3 ∨
        (scs_solve ex dw.1 dw.2 sol2 info2).2.2.2.statusVal = -2 ∨
        (scs_solve ex dw.1 dw.2 sol2 info2).2.2.2.statusVal = -1 := by
      unfold scs_solve
      rw [(getInfo_keeps _ _ _ _ _).1]
      exact setSolution_statusVal_mem _ _ _ _ _
    rcases hsv with h | h | h | h
    · exact Or.inr (Or.inr (Or.inr (Or.inr h)))
    · exact Or.inr (Or.inl h)
    · exact Or.inr (Or.inr (Or.inl h))
    · exact Or.inr (Or.inr (Or.inr (Or.inl h)))

/-- Exhausting the loop budget means the counter reached start plus
fuel. -/
theorem solveLoop_exhaust (ex : Externs) (d : Data) :
    ∀ fuel i w r, (solveLoop ex d fuel i w r).2.2.2 = 0 →
      (solveLoop ex d fuel i w r).1 = i + fuel := by
  intro fuel
  induction fuel with
  | zero =>
    intro i w r _
    simp [solveLoop]
  | succ k ih =>
    intro i w r h
    by_cases hc : (converged ex d (iterStep ex d w i) r i).1 = 0
    · simp only [solveLoop] at h ⊢
      rw [if_neg (fun hne => hne hc)] at h ⊢
      rw [ih (i + 1) _ _ h]
      omega
    · simp only [solveLoop] at h
      rw [if_pos hc] at h
      exact absurd h hc

/-- The normalizer step of updateWork touches only b and c; the
iteration budget is preserved. -/
theorem updateWork_keepsMI (ex : Externs) (d : Data) (w : Work) (sol : Sol) :
    (updateWork ex d w sol).1.MAX_ITERS = d.MAX_ITERS := by
  unfold updateWork
  by_cases hN : d.NORMALIZE <;> simp [hN]

/-- Claim C7, amended: when the loop exits because the iteration budget
is exhausted with the convergence check never returning nonzero, the
info records iter = MAX_ITERS, its status string is the terminal
classification of the solution extractor (one of Solved, Indeterminate,
Infeasible, Unbounded), and printFooter emits the console warning line
Hit MAX_ITERS, solution may be inaccurate; the string Hit MAX_ITERS is
not stored in the info structure. -/
theorem claim7_iteration_limit (ex : Externs) (d : Data) (w : Work) (sol : Sol)
    (info : Info) (hM : 0 ≤ d.MAX_ITERS)
    (hs : (loopRun ex d w sol).2.2.2 = 0) :
    (scs_solve ex d w sol info).2.2.2.iter = d.MAX_ITERS ∧
    ((scs_solve ex d w sol info).2.2.2.status = "Solved" ∨
     (scs_solve ex d w sol info).2.2.2.status = "Indeterminate" ∨
     (scs_solve ex d w sol info).2.2.2.status = "Infeasible" ∨
     (scs_solve ex d w sol info).2.2.2.status = "Unbounded") ∧
    footerHitMaxIters d (scs_solve ex d w sol info).2.2.2 = true := by
  have hcount : (loopRun ex d w sol).1 = (updateWork ex d w sol).1.MAX_ITERS.toNat := by
    simp only [loopRun] at hs ⊢
    rw [solveLoop_exhaust ex (updateWork ex d w sol).1 _ 0 _ _ hs]
    omega
  have hiter : (scs_solve ex d w sol info).2.2.2.iter = d.MAX_ITERS := by
    simp only [scs_solve]
    rw [(getInfo_keeps _ _ _ _ _).2.2]
    show (((loopRun ex d w sol).1 : Nat) : Int) = d.MAX_ITERS
    rw [hcount, updateWork_keepsMI]
    exact Int.toNat_of_nonneg hM
  refine ⟨hiter, ?_, ?_⟩
  · simp only [scs_solve]
    rw [(getInfo_keeps _ _ _ _ _).2.1]
    show (setSolution ex (updateWork ex d w sol).1 (loopRun ex d w sol).2.1 sol
        { { info with statusVal := 0 } with
            statusVal := (loopRun ex d w sol).2.2.2 }).2.status = "Solved" ∨ _
    exact setSolution_status_mem _ _ _ _ _
  · unfold footerHitMaxIters
    rw [hiter]
    simp

/-- Witness for the amended C7: a zero iteration budget exhausts the
loop immediately and the conclusions hold at this concrete instance. -/
theorem claim7_witness :
    (0 ≤ dC7.MAX_ITERS ∧ (loopRun exC7 dC7 wC7 solZ).2.2.2 = 0) ∧
    (scs_solve exC7 dC7 wC7 solZ infoZ).2.2.2.iter = dC7.MAX_ITERS ∧
    footerHitMaxIters dC7 (scs_solve exC7 dC7 wC7 solZ infoZ).2.2.2 = true := by
  have hM : (0 : Int) ≤ dC7.MAX_ITERS := by norm_num [dC7, dZ]
  have h0 : (updateWork exC7 dC7 wC7 solZ).1.MAX_ITERS = 0 := by
    rw [updateWork_keepsMI]
    rfl
  have hs : (loopRun exC7 dC7 wC7 solZ).2.2.2 = 0 := by
    simp only [loopRun, h0]
    rfl
  have hres := claim7_iteration_limit exC7 dC7 wC7 solZ infoZ hM hs
  exact ⟨⟨hM, hs⟩, hres.1, hres.2.2⟩

set_option maxHeartbeats 1000000 in
/-- Counterexample to C7 as stated: this solve exits only because the
iteration budget is exhausted, yet the status string stored in the info
structure is the extractor classification Unbounded, not the text
Hit MAX_ITERS. -/
theorem claim7_counterexample :
    (scs_solve exC7 dC7 wC7 solZ infoZ).2.2.2.iter = dC7.MAX_ITERS ∧
    (scs_solve exC7 dC7 wC7 solZ infoZ).2.2.2.status = "Unbounded" ∧
    ¬((scs_solve exC7 dC7 wC7 solZ infoZ).2.2.2.status = "Hit MAX_ITERS") := by
  have h0 : (updateWork exC7 dC7 wC7 solZ).1.MAX_ITERS = 0 := by
    rw [updateWork_keepsMI]
    rfl
  have hloop : loopRun exC7 dC7 wC7 solZ =
      (0, (updateWork exC7 dC7 wC7 solZ).2, rInit, 0) := by
    simp only [loopRun, h0]
    rfl
  have hu0 : (updateWork exC7 dC7 wC7 solZ).2.u 0 = PF.ofQ 0 := by
    norm_num [updateWork, coldStartVars, dC7, dZ, wC7, wZ, exC7, exZ, vZero,
      PF.sqrtE, PF.ofQ]
  have hu1 : (updateWork exC7 dC7 wC7 solZ).2.u 1 = PF.ofQ 0 := by
    norm_num [updateWork, coldStartVars, dC7, dZ, wC7, wZ, exC7, exZ, vZero,
      PF.sqrtE, PF.ofQ]
  have hu2 : (updateWork exC7 dC7 wC7 solZ).2.u 2 = PF.ofQ 0 := by
    norm_num [updateWork, coldStartVars, dC7, dZ, wC7, wZ, exC7, exZ, vZero,
      PF.sqrtE, PF.ofQ]
  have hu3 : (updateWork exC7 dC7 wC7 solZ).2.u 3 = PF.ofQ 2 := by
    norm_num [updateWork, coldStartVars, dC7, dZ, wC7, wZ, exC7, exZ, vZero,
      PF.sqrtE, PF.ofQ]
  have hv3 : (updateWork exC7 dC7 wC7 solZ).2.v 3 = PF.ofQ 2 := by
    norm_num [updateWork, coldStartVars, dC7, dZ, wC7, wZ, exC7, exZ, vZero,
      PF.sqrtE, PF.ofQ]
  have hl4 : (updateWork exC7 dC7 wC7 solZ).2.l = 4 := by
    norm_num [updateWork, coldStartVars, dC7, dZ, wC7, wZ]
  have hsq : exC7.sq = fun q => if q = 4 then 2 else 0 := rfl
  have hUT : dC7.UNDET_TOL = 1 / 1000000000 := rfl
  have hbz : dC7.b = vZero := rfl
  have hcz : dC7.c = vZero := rfl
  have hm2 : dC7.m.toNat = 2 := rfl
  have hn1 : dC7.n.toNat = 1 := rfl
  have hnorm : calcNorm exC7.sq (updateWork exC7 dC7 wC7 solZ).2.u 4 = PF.ofQ 2 := by
    rw [calcNorm]
    norm_num [innerProd, List.range_succ, List.range_zero, hu0, hu1, hu2, hu3,
      PF.add, PF.mul, PF.ofQ, PF.sqrtE, hsq]
  have hb1 : (PF.blt (PF.ofQ dC7.UNDET_TOL)
        ((updateWork exC7 dC7 wC7 solZ).2.u ((updateWork exC7 dC7 wC7 solZ).2.l - 1)) &&
      PF.blt (PF.abs ((updateWork exC7 dC7 wC7 solZ).2.v
        ((updateWork exC7 dC7 wC7 solZ).2.l - 1)))
        ((updateWork exC7 dC7 wC7 solZ).2.u ((updateWork exC7 dC7 wC7 solZ).2.l - 1)))
      = false := by
    rw [hl4]
    norm_num [hu3, hv3, hUT, PF.blt, PF.abs, PF.ofQ, decide_eq_true_eq]
  have hb2 : PF.blt (calcNorm exC7.sq (updateWork exC7 dC7 wC7 solZ).2.u
        (updateWork exC7 dC7 wC7 solZ).2.l)
      (PF.mul (PF.ofQ dC7.UNDET_TOL)
        (PF.sqrtE exC7.sq (PF.ofQ ((updateWork exC7 dC7 wC7 solZ).2.l : ℚ)))) = false := by
    rw [hl4, hnorm]
    norm_num [hUT, hsq, PF.blt, PF.mul, PF.ofQ, PF.sqrtE, decide_eq_true_eq]
  have hsolY := setSol_bTy dC7 (updateWork exC7 dC7 wC7 solZ).2 solZ
  have hsolX := setSol_cTx dC7 (updateWork exC7 dC7 wC7 solZ).2 solZ
  have hb3 : PF.blt
      (innerProd dC7.b (sets dC7 (updateWork exC7 dC7 wC7 solZ).2
        (sety dC7 (updateWork exC7 dC7 wC7 solZ).2
          (setx dC7 (updateWork exC7 dC7 wC7 solZ).2 solZ))).y dC7.m.toNat)
      (innerProd dC7.c (sets dC7 (updateWork exC7 dC7 wC7 solZ).2
        (sety dC7 (updateWork exC7 dC7 wC7 solZ).2
          (setx dC7 (updateWork exC7 dC7 wC7 solZ).2 solZ))).x dC7.n.toNat)
      = false := by
    rw [hsolY, hsolX, hbz, hcz, hm2, hn1]
    norm_num [innerProd, List.range_succ, List.range_zero, shift, hu0, hu1, hu2,
      vZero, PF.blt, PF.add, PF.mul, PF.ofQ, decide_eq_true_eq]
  have hstat : (scs_solve exC7 dC7 wC7 solZ infoZ).2.2.2.status = "Unbounded" := by
    simp only [scs_solve]
    rw [(getInfo_keeps _ _ _ _ _).2.1]
    show (setSolution exC7 (updateWork exC7 dC7 wC7 solZ).1
        (loopRun exC7 dC7 wC7 solZ).2.1 solZ
        { { infoZ with statusVal := 0 } with
            statusVal := (loopRun exC7 dC7 wC7 solZ).2.2.2 }).2.status = "Unbounded"
    rw [hloop]
    dsimp only
    simp only [setSolution]
    rw [if_pos (Or.inl trivial)]
    have hd1 : (updateWork exC7 dC7 wC7 solZ).1 = dC7 := rfl
    simp only [hd1]
    rw [hb1]
    simp only [Bool.false_eq_true, if_false]
    rw [hb2]
    simp only [Bool.false_eq_true, if_false]
    rw [hb3]
    simp only [Bool.false_eq_true, if_false]
    rfl
  have hiter : (scs_solve exC7 dC7 wC7 solZ infoZ).2.2.2.iter = dC7.MAX_ITERS := by
    simp only [scs_solve]
    rw [(getInfo_keeps _ _ _ _ _).2.2]
    show (((loopRun exC7 dC7 wC7 solZ).1 : Nat) : Int) = dC7.MAX_ITERS
    rw [hloop]
    rfl
  refine ⟨hiter, hstat, ?_⟩
  rw [hstat]
  simp

/-- Core of the dual nonnegativity argument, unit-step branch: with the
relaxation weight equal to one, the clamped cone update followed by the
unit dual step never yields a value comparing below zero, NaN included. -/
theorem dualSigNonneg (al : ℚ) (t p v : PF) (hal : al = 1) :
    PF.blt (PF.add v (PF.mul (PF.ofQ 1) (PF.sub
      (if PF.blt (PF.sub (PF.add (PF.mul (PF.ofQ al) t) (PF.mul (PF.ofQ (1 - al)) p)) v)
          (PF.ofQ 0)
        then PF.ofQ 0
        else PF.sub (PF.add (PF.mul (PF.ofQ al) t) (PF.mul (PF.ofQ (1 - al)) p)) v) t)))
      (PF.ofQ 0) = false := by
  subst hal
  cases t with
  | none =>
    cases v with
    | none => rfl
    | some vq =>
      cases p with
      | none => rfl
      | some pq => rfl
  | some tq =>
    cases p with
    | none =>
      cases v with
      | none => rfl
      | some vq => rfl
    | some pq =>
      cases v with
      | none => rfl
      | some vq =>
        by_cases h : PF.blt (PF.sub (PF.add (PF.mul (PF.ofQ 1) (some tq))
            (PF.mul (PF.ofQ (1 - 1)) (some pq))) (some vq)) (PF.ofQ 0) = true
        · rw [if_pos h]
          simp only [PF.ofQ, PF.mul, PF.add, PF.sub, PF.blt, decide_eq_true_eq] at h ⊢
          rw [decide_eq_false_iff_not]
          intro hc
          nlinarith
        · rw [if_neg h]
          simp only [PF.ofQ, PF.mul, PF.add, PF.sub, PF.blt, decide_eq_true_eq] at h ⊢
          rw [decide_eq_false_iff_not]
          intro hc
          nlinarith

/-- Core of the dual nonnegativity argument, exact relaxation branch:
for every weight, the clamped relaxed cone update followed by the
matching relaxed dual step never yields a value comparing below zero. -/
theorem dualExactNonneg (al : ℚ) (t p v : PF) :
    PF.blt (PF.add v (PF.sub (PF.sub
      (if PF.blt (PF.sub (PF.add (PF.mul (PF.ofQ al) t) (PF.mul (PF.ofQ (1 - al)) p)) v)
          (PF.ofQ 0)
        then PF.ofQ 0
        else PF.sub (PF.add (PF.mul (PF.ofQ al) t) (PF.mul (PF.ofQ (1 - al)) p)) v)
      (PF.mul (PF.ofQ al) t)) (PF.mul (PF.ofQ (1 - al)) p)))
      (PF.ofQ 0) = false := by
  cases t with
  | none =>
    cases v with
    | none => rfl
    | some vq =>
      cases p with
      | none => rfl
      | some pq => rfl
  | some tq =>
    cases p with
    | none =>
      cases v with
      | none => rfl
      | some vq => rfl
    | some pq =>
      cases v with
      | none => rfl
      | some vq =>
        by_cases h : PF.blt (PF.sub (PF.add (PF.mul (PF.ofQ al) (some tq))
            (PF.mul (PF.ofQ (1 - al)) (some pq))) (some vq)) (PF.ofQ 0) = true
        · rw [if_pos h]
          simp only [PF.ofQ, PF.mul, PF.add, PF.sub, PF.blt, decide_eq_true_eq] at h ⊢
          rw [decide_eq_false_iff_not]
          intro hc
          nlinarith
        · rw [if_neg h]
          simp only [PF.ofQ, PF.mul, PF.add, PF.sub, PF.blt, decide_eq_true_eq] at h ⊢
          rw [decide_eq_false_iff_not]
          intro hc
          nlinarith

/-- The final clamp of projectCones makes the embedded tau coordinate
never compare below zero, NaN included. -/
theorem projectConesTauNonneg (ex : Externs) (d : Data) (w : Work) (it : Int) :
    PF.blt ((projectCones ex d w it).u (w.l - 1)) (PF.ofQ 0) = false := by
  simp only [projectCones]
  rw [if_pos trivial]
  split_ifs with h
  · norm_num [PF.blt, PF.ofQ]
  · exact Bool.eq_false_iff.mpr h

/-- Value of the last dual coordinate after one iteration in the
unit-step branch of updateDualVars: the clamped relaxed cone update of
tau minus the linear-system value, added to the previous dual entry. -/
theorem iterStepVLastSig (ex : Externs) (d : Data) (w : Work) (i : Nat)
    (hlen : w.l = d.n.toNat + d.m.toNat + 1)
    (hcond : |d.ALPHA - 1| < (1 : ℚ) / 1000000000) :
    (iterStep ex d w i).v (w.l - 1) =
      PF.add (w.v (w.l - 1)) (PF.mul (PF.ofQ 1) (PF.sub
        (if PF.blt (PF.sub (PF.add
              (PF.mul (PF.ofQ d.ALPHA) ((projectLinSys ex d
                { w with u_prev := writeSeg w.u_prev 0 w.l w.u } (i : Int)).u_t (w.l - 1)))
              (PF.mul (PF.ofQ (1 - d.ALPHA)) (w.u (w.l - 1)))) (w.v (w.l - 1))) (PF.ofQ 0)
          then PF.ofQ 0
          else PF.sub (PF.add
              (PF.mul (PF.ofQ d.ALPHA) ((projectLinSys ex d
                { w with u_prev := writeSeg w.u_prev 0 w.l w.u } (i : Int)).u_t (w.l - 1)))
              (PF.mul (PF.ofQ (1 - d.ALPHA)) (w.u (w.l - 1)))) (w.v (w.l - 1)))
        ((projectLinSys ex d { w with u_prev := writeSeg w.u_prev 0 w.l w.u } (i : Int)).u_t
          (w.l - 1)))) := by
  set w1 : Work := { w with u_prev := writeSeg w.u_prev 0 w.l w.u } with hw1
  set w2 : Work := projectLinSys ex d w1 (i : Int) with hw2
  set w3 : Work := projectCones ex d w2 (i : Int) with hw3
  have hw2l : w2.l = w.l := rfl
  have hw3l : w3.l = w.l := rfl
  have hw2p : w2.u_prev (w.l - 1) = w.u (w.l - 1) := by
    show writeSeg w.u_prev 0 w.l w.u (w.l - 1) = w.u (w.l - 1)
    unfold writeSeg
    rw [if_pos ⟨Nat.zero_le _, by omega⟩, Nat.sub_zero]
  have hc3 : ¬ (d.n.toNat ≤ w.l - 1 ∧ w.l - 1 < d.n.toNat + d.m.toNat) := by omega
  have hc2 : d.n.toNat ≤ w.l - 1 ∧ w.l - 1 < d.n.toNat + (w.l - d.n.toNat) := by omega
  have hw3u : w3.u (w.l - 1) =
      (if PF.blt (PF.sub (PF.add (PF.mul (PF.ofQ d.ALPHA) (w2.u_t (w.l - 1)))
            (PF.mul (PF.ofQ (1 - d.ALPHA)) (w.u (w.l - 1)))) (w.v (w.l - 1))) (PF.ofQ 0)
        then PF.ofQ 0
        else PF.sub (PF.add (PF.mul (PF.ofQ d.ALPHA) (w2.u_t (w.l - 1)))
            (PF.mul (PF.ofQ (1 - d.ALPHA)) (w.u (w.l - 1)))) (w.v (w.l - 1))) := by
    rw [hw3]
    simp only [projectCones]
    rw [hw2l, if_pos rfl]
    simp only [mapIdxRange_apply]
    rw [if_neg hc3, if_pos hc2, hw2p]
    rfl
  show (updateDualVars d w3).v (w.l - 1) = _
  simp only [updateDualVars]
  rw [if_pos hcond, hw3l]
  simp only [mapIdxRange_apply]
  rw [if_pos hc2, hw3u]
  rfl

/-- C8: corrected invariant.  After every iteration of the solve loop the
homogenization coordinate u[l-1] never compares below zero thanks to the
final clamp of projectCones, and the dual coordinate v[l-1] never
compares below zero provided ALPHA is exactly one or lies outside the
1e-9 tolerance window of updateDualVars, so that the dual step matches
the relaxation actually applied by projectCones.  (The claim as stated,
without the proviso on ALPHA, fails: see the counterexample.) -/
theorem claim8_dual_nonneg (ex : Externs) (d : Data) (w : Work) (i : Nat)
    (hlen : w.l = d.n.toNat + d.m.toNat + 1)
    (ha : d.ALPHA = 1 ∨ ¬ (|d.ALPHA - 1| < (1 : ℚ) / 1000000000)) :
    PF.blt ((iterStep ex d w i).u (w.l - 1)) (PF.ofQ 0) = false ∧
    PF.blt ((iterStep ex d w i).v (w.l - 1)) (PF.ofQ 0) = false := by
  set w1 : Work := { w with u_prev := writeSeg w.u_prev 0 w.l w.u } with hw1
  set w2 : Work := projectLinSys ex d w1 (i : Int) with hw2
  set w3 : Work := projectCones ex d w2 (i : Int) with hw3
  have hstep : iterStep ex d w i = updateDualVars d w3 := rfl
  have hw2l : w2.l = w.l := rfl
  have hw3l : w3.l = w.l := rfl
  have hw2p : w2.u_prev (w.l - 1) = w.u (w.l - 1) := by
    show writeSeg w.u_prev 0 w.l w.u (w.l - 1) = w.u (w.l - 1)
    unfold writeSeg
    rw [if_pos ⟨Nat.zero_le _, by omega⟩, Nat.sub_zero]
  have hc3 : ¬ (d.n.toNat ≤ w.l - 1 ∧ w.l - 1 < d.n.toNat + d.m.toNat) := by omega
  have hc2 : d.n.toNat ≤ w.l - 1 ∧ w.l - 1 < d.n.toNat + (w.l - d.n.toNat) := by omega
  have hw3u : w3.u (w.l - 1) =
      (if PF.blt (PF.sub (PF.add (PF.mul (PF.ofQ d.ALPHA) (w2.u_t (w.l - 1)))
            (PF.mul (PF.ofQ (1 - d.ALPHA)) (w.u (w.l - 1)))) (w.v (w.l - 1))) (PF.ofQ 0)
        then PF.ofQ 0
        else PF.sub (PF.add (PF.mul (PF.ofQ d.ALPHA) (w2.u_t (w.l - 1)))
            (PF.mul (PF.ofQ (1 - d.ALPHA)) (w.u (w.l - 1)))) (w.v (w.l - 1))) := by
    rw [hw3]
    simp only [projectCones]
    rw [hw2l, if_pos rfl]
    simp only [mapIdxRange_apply]
    rw [if_neg hc3, if_pos hc2, hw2p]
    rfl
  have hw3p : w3.u_prev (w.l - 1) = w.u (w.l - 1) := hw2p
  constructor
  · rw [hstep]
    have huEq : (updateDualVars d w3).u = w3.u := by
      simp only [updateDualVars]
      by_cases hc : |d.ALPHA - 1| < (1 : ℚ) / 1000000000
      · rw [if_pos hc]
      · rw [if_neg hc]
    rw [huEq, hw3, ← hw2l]
    exact projectConesTauNonneg ex d w2 (i : Int)
  · rcases ha with hA | hA
    · have hcond : |d.ALPHA - 1| < (1 : ℚ) / 1000000000 := by
        rw [hA]
        norm_num
      rw [iterStepVLastSig ex d w i hlen hcond]
      exact dualSigNonneg d.ALPHA _ _ _ hA
    · rw [hstep]
      simp only [updateDualVars]
      rw [if_neg hA]
      rw [hw3l]
      simp only [mapIdxRange_apply]
      rw [if_pos hc2, hw3u, hw3p]
      exact dualExactNonneg d.ALPHA _ _ _

/-- Witness for the dual nonnegativity theorem at the tiny concrete
problem with the default relaxation weight 3/2. -/
theorem claim8_witness :
    PF.blt ((iterStep exZ dZ wZ 0).u (wZ.l - 1)) (PF.ofQ 0) = false ∧
    PF.blt ((iterStep exZ dZ wZ 0).v (wZ.l - 1)) (PF.ofQ 0) = false :=
  claim8_dual_nonneg exZ dZ wZ 0 (by norm_num [wZ, dZ])
    (Or.inr (by
      have habs : |dZ.ALPHA - 1| = 1 / 2 := by
        rw [show dZ.ALPHA = 3 / 2 from rfl,
          show (3 / 2 - 1 : ℚ) = 1 / 2 by norm_num]
        exact abs_of_nonneg (by norm_num)
      rw [habs]
      norm_num))

set_option maxHeartbeats 1000000 in
/-- C8 counterexample: with ALPHA strictly between 1 and 1 + 1e-9 the
cone projection relaxes with ALPHA while the dual update takes a unit
step, and after one iteration the kappa coordinate v[l-1] compares
strictly below zero. -/
theorem claim8_counterexample :
    PF.blt ((iterStep exC8 dC8 wC8 0).v 1) (PF.ofQ 0) = true := by
  have hlen : wC8.l = dC8.n.toNat + dC8.m.toNat + 1 := rfl
  have hcond : |dC8.ALPHA - 1| < (1 : ℚ) / 1000000000 := by
    rw [show dC8.ALPHA - 1 = 1 / 10000000000 by
        rw [show dC8.ALPHA = 1 + 1 / 10000000000 from rfl]
        ring,
      abs_of_nonneg (by norm_num)]
    norm_num
  rw [show (1 : Nat) = wC8.l - 1 from rfl,
    iterStepVLastSig exC8 dC8 wC8 0 hlen hcond, projectLinSysUt]
  set WP : Work := { wC8 with u_prev := writeSeg wC8.u_prev 0 wC8.l wC8.u } with hWP
  have hli : wC8.l - 1 = 1 := rfl
  rw [hli]
  simp only [Nat.cast_zero]
  have h7a : plsStep7 exC8 dC8 WP (0 : Int) 0 = PF.ofQ (-(1 : ℚ) / 2) := by
    norm_num [plsStep7, exC8, exZ, hWP, wC8, wZ]
  have h7b : plsStep7 exC8 dC8 WP (0 : Int) 1 = PF.ofQ 1 := by
    norm_num [plsStep7, plsStep5, plsStep4, plsStep3, plsStep2, plsStep1, innerProd,
      List.range_succ, List.range_zero, writeSeg, hWP, wC8, wZ, dC8, dZ, vZero,
      PF.add, PF.sub, PF.mul, PF.neg, PF.div, PF.ofQ]
  have hWl : WP.l - 1 = 1 := rfl
  have hh0 : WP.h 0 = PF.ofQ 1 := rfl
  have hh0w : wC8.h 0 = PF.ofQ 1 := rfl
  have hT : plsStep8 exC8 dC8 WP (0 : Int) 1 = PF.ofQ (1 / 2) := by
    norm_num [plsStep8, innerProd, List.range_succ, List.range_zero, hWl, h7a, h7b, hh0,
      hh0w, PF.add, PF.mul, PF.ofQ]
  rw [hT]
  have hAv : dC8.ALPHA = 1 + 1 / 10000000000 := rfl
  have hu1 : wC8.u 1 = PF.ofQ 1 := rfl
  have hv1 : wC8.v 1 = PF.ofQ 0 := rfl
  rw [hAv, hu1, hv1]
  norm_num [PF.add, PF.sub, PF.mul, PF.blt, PF.ofQ, decide_eq_true_eq]

/-- The dual update of one iteration leaves every entry below n
unchanged: updateDualVars writes only the index range [n, l), and the
two projection phases do not write v at all. -/
theorem iterStep_v_low (ex : Externs) (d : Data) (w : Work) (k : Nat) (i : Nat)
    (hi : i < d.n.toNat) : (iterStep ex d w k).v i = w.v i := by
  show (updateDualVars d (projectCones ex d (projectLinSys ex d
      { w with u_prev := writeSeg w.u_prev 0 w.l w.u } (k : Int)) (k : Int))).v i = w.v i
  have hno : ¬ (d.n.toNat ≤ i ∧ i < d.n.toNat +
      ((projectCones ex d (projectLinSys ex d
        { w with u_prev := writeSeg w.u_prev 0 w.l w.u } (k : Int)) (k : Int)).l -
        d.n.toNat)) := by
    omega
  simp only [updateDualVars]
  by_cases hc : |d.ALPHA - 1| < (1 : ℚ) / 1000000000
  · rw [if_pos hc]
    dsimp only
    rw [mapIdxRange_apply, if_neg hno]
    rfl
  · rw [if_neg hc]
    dsimp only
    rw [mapIdxRange_apply, if_neg hno]
    rfl

/-- C10: under cold start the first n entries of the dual iterate v are
zero after initialization and stay exactly zero after every iteration of
the solve loop, because the dual update writes only indices in [n, l)
and no other loop phase writes v; consequently, whenever the v prefix is
zero, the x block of the cone-projection phase reduces to copying u_t:
u[i] = u_t[i] for i < n. -/
theorem claim10_cold_start (ex : Externs) (d : Data) (w : Work) (sol : Sol) (i : Nat)
    (hw : d.WARM_START = false)
    (hlen : w.l = d.n.toNat + d.m.toNat + 1)
    (hi : i < d.n.toNat) :
    (∀ k, (iterN ex (updateWork ex d w sol).1 (updateWork ex d w sol).2 k).v i =
      PF.ofQ 0) ∧
    (∀ (d2 : Data) (w2 : Work) (it : Int), i < d2.n.toNat →
      d2.n.toNat + d2.m.toNat + 1 = w2.l → w2.v i = PF.ofQ 0 →
      (projectCones ex d2 w2 it).u i = w2.u_t i) := by
  have hd1n : (updateWork ex d w sol).1.n = d.n := by
    show (if d.NORMALIZE then { d with b := ex.normB d, c := ex.normC d } else d).n = d.n
    by_cases hN : d.NORMALIZE <;> simp [hN]
  have hi1 : i < (updateWork ex d w sol).1.n.toNat := by
    rw [hd1n]
    exact hi
  have base : (updateWork ex d w sol).2.v i = PF.ofQ 0 := by
    simp only [updateWork]
    have hWS : (if d.NORMALIZE then { d with b := ex.normB d, c := ex.normC d }
        else d).WARM_START = false := by
      by_cases hN : d.NORMALIZE <;> simp [hN, hw]
    rw [hWS]
    simp only [Bool.false_eq_true, if_false]
    simp only [coldStartVars]
    rw [if_neg (show ¬ (i = w.l - 1) by omega), if_pos (show i < w.l by omega)]
  constructor
  · intro k
    induction k with
    | zero => exact base
    | succ k ih =>
      show (iterStep ex (updateWork ex d w sol).1
          (iterN ex (updateWork ex d w sol).1 (updateWork ex d w sol).2 k) k).v i =
        PF.ofQ 0
      rw [iterStep_v_low _ _ _ _ _ hi1]
      exact ih
  · intro d2 w2 it hi2 hl2 hv0
    simp only [projectCones]
    rw [if_neg (show ¬ (i = w2.l - 1) by omega)]
    simp only [mapIdxRange_apply]
    rw [if_neg (show ¬ (d2.n.toNat ≤ i ∧ i < d2.n.toNat + d2.m.toNat) by omega),
      if_neg (show ¬ (d2.n.toNat ≤ i ∧ i < d2.n.toNat + (w2.l - d2.n.toNat)) by omega),
      if_pos (show 0 ≤ i ∧ i < 0 + d2.n.toNat by omega)]
    rw [hv0, PF.sub_zero]

/-- Witness for the cold-start dual-zero theorem at the tiny concrete
problem, index zero of the x block. -/
theorem claim10_witness :
    (∀ k, (iterN exZ (updateWork exZ dZ wZ solZ).1 (updateWork exZ dZ wZ solZ).2 k).v 0 =
      PF.ofQ 0) ∧
    (∀ (d2 : Data) (w2 : Work) (it : Int), 0 < d2.n.toNat →
      d2.n.toNat + d2.m.toNat + 1 = w2.l → w2.v 0 = PF.ofQ 0 →
      (projectCones exZ d2 w2 it).u 0 = w2.u_t 0) :=
  claim10_cold_start exZ dZ wZ solZ 0 rfl rfl (by norm_num [dZ])

end SCS

